import Mathlib

/-!
Verification of the AetherCore adversarial file-retention analyzer
(.github/workflows/scripts: agents/prosecutor.py, agents/defense.py,
agents/judge.py, agents/court.py, quarantine_manager.py,
dependency_graph.py, semantic_analyzer.py).

Python floats are modelled as exact rationals; Python dicts keyed by
strings are modelled as association lists in insertion order.  Report
strings (summaries, arguments, emoji text) do not influence any decision
and are not modelled.
-/

namespace AetherCore

/-! ## Rounding

Python's builtin round uses round-half-to-even.  round(x, 1) is modelled
as roundHalfEven (10 x) / 10 over the rationals. -/

/-- Round a rational to the nearest integer, ties to the even integer,
matching Python's builtin round. -/
def roundHalfEven (q : ℚ) : ℤ :=
  let f : ℤ := ⌊q⌋
  let r : ℚ := q - f
  if r < 1/2 then f
  else if 1/2 < r then f + 1
  else if Even f then f else f + 1

/-- Python round(q, 1). -/
def round1 (q : ℚ) : ℚ := (roundHalfEven (10 * q) : ℚ) / 10

/-! ## Prosecutor (agents/prosecutor.py)

Evidence, as produced by the nine checks of ProsecutorAgent.  The
details dict never influences scores and is not modelled. -/

structure PEvidence where
  type : String
  description : String
  severity : String
  weight : ℚ
  deriving DecidableEq

/-- Sum of max(0, weight) over the evidence list
(ProsecutorAgent._calculate_score, total_weight). -/
def sumPosWeights (evs : List PEvidence) : ℚ :=
  evs.foldl (fun a e => a + max 0 e.weight) 0

/-- Severity multiplier loop of ProsecutorAgent._calculate_score. -/
def sevMult (evs : List PEvidence) : ℚ :=
  evs.foldl
    (fun m e =>
      if e.severity = "critical" then max m (3/2)
      else if e.severity = "major" then max m (6/5)
      else m)
    1

/-- ProsecutorAgent._calculate_score: 0 on empty evidence, otherwise
round(min(100, total_weight * 40 * severity_multiplier), 1). -/
def calculateScore (evs : List PEvidence) : ℚ :=
  if evs = [] then 0
  else round1 (min 100 (sumPosWeights evs * 40 * sevMult evs))

/-- The verdict/confidence tail of ProsecutorAgent.build_case, as a
function of the evidence list. -/
structure ProsecutionOutcome where
  score : ℚ
  verdict : String
  recommendedAction : String
  confidence : ℚ
  deriving DecidableEq

/-- Score, verdict, recommended action and confidence assigned by
ProsecutorAgent.build_case from the gathered evidence. -/
def buildVerdict (evs : List PEvidence) : ProsecutionOutcome :=
  let s := calculateScore evs
  if s ≥ 70 then
    { score := s, verdict := "QUARANTINE", recommendedAction := "quarantine",
      confidence := min (19/20) (s / 100) }
  else if s ≥ 50 then
    { score := s, verdict := "REVIEW_NEEDED", recommendedAction := "review",
      confidence := s / 100 }
  else
    { score := s, verdict := "KEEP", recommendedAction := "keep",
      confidence := max (3/10) (s / 100) }

/-- FileCourt.identify_suspects marks a file a suspect when the
prosecutor's confidence reaches the threshold. -/
def isSuspect (evs : List PEvidence) (threshold : ℚ) : Bool :=
  (buildVerdict evs).confidence ≥ threshold

/-- ProsecutorAgent._check_orphan_status, as a function of the file's
importer and import sets (reverse_graph / dep_graph entries). -/
def checkOrphanStatus (importers imports : List String) : List PEvidence :=
  if importers = [] ∧ imports = [] then
    [{ type := "orphan",
       description := "File is completely isolated - no imports and nothing imports it",
       severity := "critical", weight := 4/5 }]
  else if importers = [] then
    [{ type := "orphan",
       description := "Nothing imports this file",
       severity := "major", weight := 3/5 }]
  else if importers.length = 1 then
    [{ type := "low_usage",
       description := "Only imported by 1 file",
       severity := "minor", weight := 1/5 }]
  else []

/-! Obsolete-filename patterns (ProsecutorAgent.OBSOLETE_PATTERNS).
The Python patterns are regexes applied to the lowercased filename with
re.IGNORECASE; each is hand-translated below.  A word character is
[A-Za-z0-9_]. -/

def isWordChar (c : Char) : Bool :=
  c.isAlpha || c.isDigit || c = '_'

/-- A word boundary follows: the remaining text is empty or starts with
a non-word character. -/
def boundaryAt : List Char → Bool
  | [] => true
  | c :: _ => !(isWordChar c)

/-- Does sub occur in l at some position, followed by a word boundary
(the regex sub plus backslash-b)? -/
def hasSubBoundary (l sub : List Char) : Bool :=
  match l with
  | [] => sub.isPrefixOf ([] : List Char) && boundaryAt []
  | _ :: rest =>
    (sub.isPrefixOf l && boundaryAt (l.drop sub.length)) || hasSubBoundary rest sub

/-- Does sub occur anywhere in l? -/
def hasSub (l sub : List Char) : Bool :=
  match l with
  | [] => sub.isPrefixOf ([] : List Char)
  | _ :: rest => sub.isPrefixOf l || hasSub rest sub

/-- Regex: underscore v, one or more digits, then a word boundary. -/
def hasVDigits : List Char → Bool
  | [] => false
  | '_' :: 'v' :: c :: rest =>
    (c.isDigit && boundaryAt ((c :: rest).dropWhile Char.isDigit)) ||
      hasVDigits ('v' :: c :: rest)
  | _ :: rest => hasVDigits rest

/-- Regex: open parenthesis, one or more digits, close parenthesis. -/
def hasParenDigits : List Char → Bool
  | [] => false
  | '(' :: c :: rest =>
    (c.isDigit &&
      (match (c :: rest).dropWhile Char.isDigit with
       | ')' :: _ => true
       | _ => false)) ||
      hasParenDigits (c :: rest)
  | _ :: rest => hasParenDigits rest

/-- The 17 OBSOLETE_PATTERNS of ProsecutorAgent, in source order, each
paired with its matcher on the lowercased filename. -/
def obsoletePatterns : List (String × (List Char → Bool)) :=
  [ ("_old\\b", fun l => hasSubBoundary l "_old".data),
    ("_backup\\b", fun l => hasSubBoundary l "_backup".data),
    ("_bak\\b", fun l => hasSubBoundary l "_bak".data),
    ("\\.bak$", fun l => "kab.".data.isPrefixOf l.reverse),
    ("_copy\\b", fun l => hasSubBoundary l "_copy".data),
    ("_deprecated\\b", fun l => hasSubBoundary l "_deprecated".data),
    ("_unused\\b", fun l => hasSubBoundary l "_unused".data),
    ("_archive\\b", fun l => hasSubBoundary l "_archive".data),
    ("_legacy\\b", fun l => hasSubBoundary l "_legacy".data),
    ("_temp\\b", fun l => hasSubBoundary l "_temp".data),
    ("_tmp\\b", fun l => hasSubBoundary l "_tmp".data),
    ("\\.tmp$", fun l => "pmt.".data.isPrefixOf l.reverse),
    ("_test_old\\b", fun l => hasSubBoundary l "_test_old".data),
    ("_v\\d+\\b", fun l => hasVDigits l),
    ("Copy of", fun l => hasSub l "copy of".data),
    ("\\(\\d+\\)", fun l => hasParenDigits l),
    ("~$", fun l => "~".data.isPrefixOf l.reverse) ]

/-- ProsecutorAgent._check_obsolete_naming: one evidence item for the
first matching pattern, none otherwise. -/
def checkObsoleteNaming (filenameLower : String) : List PEvidence :=
  match obsoletePatterns.find? (fun p => p.2 filenameLower.data) with
  | some p =>
    [{ type := "obsolete_name",
       description := "Filename contains obsolete marker: " ++ p.1,
       severity := "major", weight := 7/10 }]
  | none => []

/-! ## Judge (agents/judge.py)

The judge receives both cases as Python dicts (the result of
ProsecutionCase.to_dict / DefenseCase.to_dict) and reads evidence fields
with dict.get and a default.  Evidence dicts are modelled as association
lists over a value type of strings and numbers. -/

inductive JVal where
  | str (s : String)
  | num (q : ℚ)
  deriving DecidableEq

/-- A Python dict holding evidence fields. -/
abbrev JDict := List (String × JVal)

/-- dict.get with a numeric default. -/
def getNum (d : JDict) (k : String) (dflt : ℚ) : ℚ :=
  match d.lookup k with
  | some (.num q) => q
  | _ => dflt

/-- dict.get with a string default. -/
def getStr (d : JDict) (k : String) (dflt : String) : String :=
  match d.lookup k with
  | some (.str s) => s
  | _ => dflt

/-- dict.get with no default: the value, or Python None. -/
def getOpt (d : JDict) (k : String) : Option JVal := d.lookup k

/-- What the judge reads from a case dict: file path, evidence dicts,
case.get import_chain and referenced_by (defaulting to empty lists when
the keys are absent, as in the prosecution dict). -/
structure JudgeInput where
  filePath : String
  evidence : List JDict
  importChain : List String
  referencedBy : List String

/-- ProsecutionCase.to_dict, restricted to the fields the judge reads.
Each evidence item is serialized under the keys type, description,
severity and weight; the dict has no import_chain or referenced_by
keys, so the judge's case.get calls on them yield empty lists. -/
def prosecutionToJudgeInput (filePath : String) (evs : List PEvidence) : JudgeInput :=
  { filePath := filePath,
    evidence := evs.map (fun e =>
      [("type", JVal.str e.type), ("description", JVal.str e.description),
       ("severity", JVal.str e.severity), ("weight", JVal.num e.weight)]),
    importChain := [], referencedBy := [] }

/-- Defense evidence (agents/defense.py, dataclass Evidence). -/
structure DEvidence where
  category : String
  description : String
  strength : ℚ
  deriving DecidableEq

/-- DefenseCase.to_dict, restricted to the fields the judge reads.
Defense evidence is serialized under category, description, strength. -/
def defenseToJudgeInput (filePath : String) (evs : List DEvidence)
    (importChain referencedBy : List String) : JudgeInput :=
  { filePath := filePath,
    evidence := evs.map (fun e =>
      [("category", JVal.str e.category), ("description", JVal.str e.description),
       ("strength", JVal.num e.strength)]),
    importChain := importChain, referencedBy := referencedBy }

def CRITICAL_PROSECUTION : List String :=
  ["NO_IMPORTS", "NO_REFERENCES", "STALE", "EXACT_DUPLICATE"]

def CRITICAL_DEFENSE : List String :=
  ["IMPORT_DEPENDENCY", "ENTRY_POINT", "CONFIGURATION_FILE", "INTEGRATION"]

/-- The per-evidence contribution of the loop of
JudgeAgent._calculate_prosecution_score: strength read with get, times
1.5 when the category read with get is critical prosecution. -/
def prosecutionStrengthTerm (e : JDict) : ℚ :=
  let strength := getNum e "strength" 0
  let category := getStr e "category" ""
  if category ∈ CRITICAL_PROSECUTION then strength * (3/2) else strength

/-- JudgeAgent._calculate_prosecution_score. -/
def calcProsecutionScore (c : JudgeInput) : ℚ :=
  let base := c.evidence.foldl (fun acc e => acc + prosecutionStrengthTerm e) 0
  let cats := (c.evidence.map (fun e => getOpt e "category")).dedup
  if cats.length ≥ 3 then base * (6/5) else base

/-- The per-evidence contribution of the loop of
JudgeAgent._calculate_defense_score. -/
def defenseStrengthTerm (e : JDict) : ℚ :=
  let strength := getNum e "strength" 0
  let category := getStr e "category" ""
  if category ∈ CRITICAL_DEFENSE then strength * (3/2) else strength

/-- JudgeAgent._calculate_defense_score. -/
def calcDefenseScore (c : JudgeInput) : ℚ :=
  let base := c.evidence.foldl (fun acc e => acc + defenseStrengthTerm e) 0
  let s1 := if c.importChain.length > 0
    then base + min 1 ((c.importChain.length : ℚ) * (1/5)) else base
  if c.referencedBy.length > 0
    then s1 + min (4/5) ((c.referencedBy.length : ℚ) * (3/20)) else s1

def HIGH_RISK_PATTERNS : List String :=
  ["auth", "security", "config", "main", "index", "server", "app", "core",
   "base", "util", "helper", "api", "gateway", "__init__", "setup",
   "install", "deploy", "build"]

/-- ASCII lowercasing of one character (str.lower on the inputs the
analyzer handles). -/
def lowerChar (c : Char) : Char :=
  if 'A' ≤ c ∧ c ≤ 'Z' then Char.ofNat (c.toNat + 32) else c

/-- str.lower. -/
def strToLower (s : String) : String := String.mk (s.data.map lowerChar)

/-- The characters after the last slash. -/
def lastComponent (l : List Char) : List Char :=
  (l.reverse.takeWhile (fun c => !(c == '/'))).reverse

/-- The name with its last suffix removed (pathlib stem semantics: a
leading or trailing dot is not a suffix separator). -/
def stemOf (name : List Char) : List Char :=
  let rev := name.reverse
  let pre := rev.takeWhile (fun c => !(c == '.'))
  if pre.length = rev.length ∨ pre = [] then name
  else
    let rest := rev.drop (pre.length + 1)
    if rest = [] then name else rest.reverse

/-- Last path component (Python pathlib Path(p).name). -/
def pathName (p : String) : String := String.mk (lastComponent p.data)

/-- Python pathlib Path(p).stem. -/
def pathStem (p : String) : String := String.mk (stemOf (lastComponent p.data))

/-- Substring test, Python in operator on strings. -/
def strContains (s pat : String) : Bool := hasSub s.data pat.data

/-- JudgeAgent._is_high_risk. -/
def isHighRisk (filePath : String) : Bool :=
  let filename := strToLower (pathName filePath)
  let stem := strToLower (pathStem filePath)
  HIGH_RISK_PATTERNS.any (fun pat => strContains filename pat || strContains stem pat)

/-- JudgeAgent._identify_dissenting_points: descriptions of losing-side
evidence whose strength (read with get) is at least 0.7, top 3. -/
def identifyDissentingPoints (prosecution defense : JudgeInput)
    (prosecutionWon : Bool) : List String :=
  let losing := if prosecutionWon then defense else prosecution
  ((losing.evidence.filter (fun e => getNum e "strength" 0 ≥ 7/10)).map
    (fun e => getStr e "description" "")).take 3

def QUARANTINE_THRESHOLD : ℚ := 13/20
def KEEP_THRESHOLD : ℚ := 11/20
def REVIEW_THRESHOLD : ℚ := 3/20

/-- JudgeAgent._make_decision: decision string and confidence from the
normalized weights, the high-risk flag and the dissenting points. -/
def makeDecision (prosecutionWeight defenseWeight : ℚ) (highRisk : Bool)
    (dissentingPoints : List String) : String × ℚ :=
  let difference := prosecutionWeight - defenseWeight
  if difference > QUARANTINE_THRESHOLD then
    if highRisk && dissentingPoints.length > 0 then ("REVIEW_NEEDED", 3/5)
    else ("QUARANTINE", min (19/20) (1/2 + difference))
  else if difference < -KEEP_THRESHOLD then
    ("KEEP", min (19/20) (1/2 + |difference|))
  else if |difference| < REVIEW_THRESHOLD then
    ("REVIEW_NEEDED", 1/2)
  else if difference > 0 then
    if highRisk then ("REVIEW_NEEDED", 11/20)
    else ("QUARANTINE", 3/5 + difference * (3/10))
  else
    ("KEEP", 3/5 + |difference| * (3/10))

/-- The decision-relevant part of JudgeAgent.judge: scores, conservative
and high-risk adjustments, normalization, dissenting points, decision.
Returns decision, confidence, prosecution weight, defense weight. -/
def judgeVerdict (prosecutionCase defenseCase : JudgeInput)
    (conservativeMode : Bool) : String × ℚ × ℚ × ℚ :=
  let prosecutionScore := calcProsecutionScore prosecutionCase
  let defenseScore := calcDefenseScore defenseCase
  let highRisk := isHighRisk prosecutionCase.filePath
  let defenseScore := if conservativeMode then defenseScore * (23/20) else defenseScore
  let defenseScore := if highRisk then defenseScore * (5/4) else defenseScore
  let total := prosecutionScore + defenseScore
  let weights : ℚ × ℚ :=
    if total > 0 then (prosecutionScore / total, defenseScore / total)
    else (1/2, 1/2)
  let dissent := identifyDissentingPoints prosecutionCase defenseCase
    (weights.1 > weights.2)
  let dc := makeDecision weights.1 weights.2 highRisk dissent
  (dc.1, dc.2, weights.1, weights.2)

/-! ## QuarantineManager (quarantine_manager.py)

The filesystem is modelled as an association list from repo-relative
path to content; quarantined copies live under quarantine/session/path.
Directory creation and empty-directory cleanup have no observable effect
at this level and are not modelled.  datetime.now() is passed in as the
now argument.  Each operation additionally returns the list of events it
performed: one fileStep per per-file processing step and one save per
_save_manifest call (on-disk manifest rewrite). -/

/-- Association-list update with Python dict semantics: replace in
place if the key exists, append otherwise. -/
def aupdate {α : Type} (l : List (String × α)) (k : String) (v : α) :
    List (String × α) :=
  if (l.lookup k).isSome then
    l.map (fun p => if p.1 == k then (k, v) else p)
  else l ++ [(k, v)]

/-- Association-list removal (the file disappears from its old path). -/
def aremove {α : Type} (l : List (String × α)) (k : String) :
    List (String × α) :=
  l.filter (fun p => !(p.1 == k))

/-- One entry of manifest files (quarantine_manager.py file_record). -/
structure FileRecord where
  originalPath : String
  quarantinePath : String
  sessionId : String
  timestamp : String
  reasons : List String
  restored : Bool
  restoredAt : Option String
  deleted : Bool
  deriving DecidableEq

/-- One entry of manifest quarantine_sessions. -/
structure QSession where
  sessionId : String
  timestamp : String
  filesCount : Nat
  files : List String
  deriving DecidableEq

/-- The quarantine manifest. -/
structure Manifest where
  created : String
  lastUpdated : String
  quarantineSessions : List QSession
  files : List (String × FileRecord)
  deriving DecidableEq

/-- State touched by the QuarantineManager: the repository filesystem
(path to content), the in-memory manifest, and the manifest as last
written to disk (none if never written). -/
structure QState where
  fs : List (String × String)
  manifest : Manifest
  diskManifest : Option Manifest
  deriving DecidableEq

/-- Events observable during a batch: a per-file processing step, or an
on-disk manifest rewrite (_save_manifest). -/
inductive QEvent where
  | fileStep (path : String)
  | save
  deriving DecidableEq

def isSave : QEvent → Bool
  | .save => true
  | _ => false

def isFileStep : QEvent → Bool
  | .fileStep _ => true
  | _ => false

/-- QuarantineManager._save_manifest: stamp last_updated and rewrite the
manifest file on disk. -/
def saveManifest (st : QState) (now : String) : QState :=
  let m := { st.manifest with lastUpdated := now }
  { st with manifest := m, diskManifest := some m }

/-- Result dict of _move_single_file / restore_file.  Keys that a given
return path does not set are modelled as none. -/
structure OpResult where
  path : String
  success : Bool
  dryRun : Option Bool
  error : Option String
  quarantinePath : Option String
  deriving DecidableEq

/-- QuarantineManager._move_single_file. -/
def moveSingleFile (st : QState) (filePath : String) (reasons : List String)
    (sessionId now : String) (dryRun : Bool) :
    OpResult × QState × List QEvent :=
  match st.fs.lookup filePath with
  | none =>
    ({ path := filePath, success := false, dryRun := none,
       error := some "File not found", quarantinePath := none },
     st, [.fileStep filePath])
  | some content =>
    let destPath := "quarantine/" ++ sessionId ++ "/" ++ filePath
    let st := if dryRun then st
      else { st with fs := aupdate (aremove st.fs filePath) destPath content }
    let record : FileRecord :=
      { originalPath := filePath, quarantinePath := destPath,
        sessionId := sessionId, timestamp := now, reasons := reasons,
        restored := false, restoredAt := none, deleted := false }
    let st := if dryRun then st
      else { st with manifest :=
        { st.manifest with files := aupdate st.manifest.files filePath record } }
    ({ path := filePath, success := true, dryRun := some dryRun,
       error := none, quarantinePath := some destPath },
     st, [.fileStep filePath])

/-- Text of the generated per-session restore script
(_generate_restore_script), kept abstract up to its mv lines. -/
def restoreScriptText (sessionId : String) (files : List OpResult) : String :=
  "#!/bin/bash restore session " ++ sessionId ++ " " ++
    String.intercalate " " (files.map (fun f => f.path))

/-- QuarantineManager._generate_restore_script writes the script file
under the session's quarantine directory. -/
def generateRestoreScript (st : QState) (sessionId : String)
    (files : List OpResult) : QState :=
  let scriptPath := "quarantine/" ++ sessionId ++ "/restore_files.sh"
  { st with fs := aupdate st.fs scriptPath (restoreScriptText sessionId files) }

/-- The per-file loop of QuarantineManager.move_to_quarantine, yielding
results, the successful results (session_files), the state and events. -/
def moveLoop (st : QState) (files : List String)
    (reasons : List (String × List String)) (sessionId now : String)
    (dryRun : Bool) :
    List OpResult × List OpResult × QState × List QEvent :=
  match files with
  | [] => ([], [], st, [])
  | f :: rest =>
    let r := moveSingleFile st f ((reasons.lookup f).getD []) sessionId now dryRun
    let rec_ := moveLoop r.2.1 rest reasons sessionId now dryRun
    (r.1 :: rec_.1,
     (if r.1.success then [r.1] else []) ++ rec_.2.1,
     rec_.2.2.1,
     r.2.2 ++ rec_.2.2.2)

/-- QuarantineManager.move_to_quarantine. -/
def moveToQuarantine (st : QState) (files : List String)
    (reasons : List (String × List String)) (sessionId now : String)
    (dryRun : Bool) : List OpResult × QState × List QEvent :=
  let lp := moveLoop st files reasons sessionId now dryRun
  let results := lp.1
  let sessionFiles := lp.2.1
  let st := lp.2.2.1
  let events := lp.2.2.2
  if sessionFiles ≠ [] ∧ dryRun = false then
    let st := { st with manifest := { st.manifest with
      quarantineSessions := st.manifest.quarantineSessions ++
        [{ sessionId := sessionId, timestamp := now,
           filesCount := sessionFiles.length,
           files := sessionFiles.map (fun f => f.path) }] } }
    let st := saveManifest st now
    let st := generateRestoreScript st sessionId sessionFiles
    (results, st, events ++ [.save])
  else (results, st, events)

/-- QuarantineManager.restore_file. -/
def restoreFile (st : QState) (filePath now : String) (dryRun : Bool) :
    OpResult × QState × List QEvent :=
  match st.manifest.files.lookup filePath with
  | none =>
    ({ path := filePath, success := false, dryRun := none,
       error := some "File not found in quarantine manifest",
       quarantinePath := none }, st, [.fileStep filePath])
  | some record =>
    if record.restored then
      ({ path := filePath, success := false, dryRun := none,
         error := some "File already restored", quarantinePath := none },
       st, [.fileStep filePath])
    else
      match st.fs.lookup record.quarantinePath with
      | none =>
        ({ path := filePath, success := false, dryRun := none,
           error := some "Quarantined file not found", quarantinePath := none },
         st, [.fileStep filePath])
      | some content =>
        if dryRun then
          ({ path := filePath, success := true, dryRun := some dryRun,
             error := none, quarantinePath := none }, st, [.fileStep filePath])
        else
          let st := { st with
            fs := aupdate (aremove st.fs record.quarantinePath) filePath content }
          let record := { record with restored := true, restoredAt := some now }
          let st := { st with manifest := { st.manifest with
            files := aupdate st.manifest.files filePath record } }
          let st := saveManifest st now
          ({ path := filePath, success := true, dryRun := some dryRun,
             error := none, quarantinePath := none },
           st, [.fileStep filePath, .save])

/-- The per-file loop of QuarantineManager.restore_session. -/
def restoreLoop (st : QState) (files : List String) (now : String)
    (dryRun : Bool) : List OpResult × QState × List QEvent :=
  match files with
  | [] => ([], st, [])
  | f :: rest =>
    let r := restoreFile st f now dryRun
    let rec_ := restoreLoop r.2.1 rest now dryRun
    (r.1 :: rec_.1, rec_.2.1, r.2.2 ++ rec_.2.2)

/-- QuarantineManager.restore_session. -/
def restoreSession (st : QState) (sessionId now : String) (dryRun : Bool) :
    List OpResult × QState × List QEvent :=
  match st.manifest.quarantineSessions.find?
      (fun s => s.sessionId == sessionId) with
  | none =>
    ([{ path := "", success := false, dryRun := none,
        error := some ("Session " ++ sessionId ++ " not found"),
        quarantinePath := none }], st, [])
  | some session => restoreLoop st session.files now dryRun

/-- Number of on-disk manifest rewrites in an event list. -/
def saveCount (tr : List QEvent) : Nat := tr.countP isSave

/-- No per-file step occurs after any manifest rewrite. -/
def noStepAfterSave : List QEvent → Bool
  | [] => true
  | e :: rest =>
    (if isSave e then rest.all (fun x => !(isFileStep x)) else true) &&
      noStepAfterSave rest

/-- The batch discipline claimed by the spec: at most one manifest
rewrite, and only after all per-file steps. -/
def savesOnlyAfterBatch (tr : List QEvent) : Bool :=
  decide (saveCount tr ≤ 1) && noStepAfterSave tr

/-! ## DependencyGraphBuilder.get_orphaned_files (dependency_graph.py)

The forward graph is an association list from file to its dependency
list (Python dict file to set).  get_orphaned_files runs breadth-first
search from the entry points over the forward graph and returns the
graph keys left unvisited.  The Python while loop is modelled with
explicit fuel; bfsFuel is an upper bound on the number of iterations, so
the fueled run always completes (proved below). -/

abbrev Graph := List (String × List String)

def gkeys (g : Graph) : List String := g.map Prod.fst

/-- forward_graph.get(x, empty set): the dependency list of x. -/
def nbrs (g : Graph) (x : String) : List String := (g.lookup x).getD []

/-- The body of the BFS while loop of get_orphaned_files.  Python pops
the queue front; if unvisited it marks it visited and appends its
unvisited dependencies. -/
def bfsAux (g : Graph) : Nat → List String → List String → Option (List String)
  | _, [], visited => some visited
  | 0, _ :: _, _ => none
  | fuel + 1, c :: rest, visited =>
    if visited.contains c then bfsAux g fuel rest visited
    else
      let visited2 := visited ++ [c]
      bfsAux g fuel (rest ++ (nbrs g c).filter (fun d => !(visited2.contains d)))
        visited2

/-- Every node the BFS can ever touch: entry points, graph keys and all
dependency targets. -/
def bfsUniv (g : Graph) (entryPoints : List String) : List String :=
  (entryPoints ++ gkeys g ++ (g.map Prod.snd).flatten).dedup

/-- Fuel bound: initial queue length plus, for every node of the
universe, one visit step plus its out-degree. -/
def bfsFuel (g : Graph) (entryPoints : List String) : Nat :=
  entryPoints.length +
    ((bfsUniv g entryPoints).map (fun x => 1 + (nbrs g x).length)).sum

/-- DependencyGraphBuilder.get_orphaned_files: graph keys not visited by
the BFS from the entry points. -/
def getOrphanedFiles (g : Graph) (entryPoints : List String) :
    Option (List String) :=
  (bfsAux g (bfsFuel g entryPoints) entryPoints []).map
    (fun visited => (gkeys g).filter (fun x => !(visited.contains x)))

/-- Reachability from the entry-point set by following forward edges. -/
inductive ReachFrom (g : Graph) (entryPoints : List String) : String → Prop
  | entry {x : String} : x ∈ entryPoints → ReachFrom g entryPoints x
  | step {x y : String} : ReachFrom g entryPoints x → y ∈ nbrs g x →
      ReachFrom g entryPoints y

/-! ## SemanticAnalyzer TF-IDF (semantic_analyzer.py)

A corpus is the per-file word-frequency data built by analyze_all phase
one: an association list from file path to its word_freq association
list (term to count).  document_freq is accumulated one file at a time
in _analyze_file; _calculate_tfidf then computes the weights and the
top-30 keyword list. -/

abbrev WordFreq := List (String × Nat)

abbrev Corpus := List (String × WordFreq)

/-- The incremental document-frequency counter: each analyzed file adds
one to document_freq of every distinct term of its word_freq
(_analyze_file, final loop; Counter defaults to 0). -/
def documentFreq (corpus : Corpus) (term : String) : Nat :=
  corpus.foldl
    (fun acc f => if (f.2.map Prod.fst).dedup.contains term then acc + 1 else acc)
    0

/-- total_words of _calculate_tfidf: the file's term-count sum, or 1
when that sum is zero. -/
def totalWords (wf : WordFreq) : Nat :=
  let s := (wf.map Prod.snd).sum
  if s = 0 then 1 else s

/-- The TF-IDF weight _calculate_tfidf assigns to one term of one file:
(count / total) * ln((total_docs + 1) / (document_freq + 1)). -/
noncomputable def tfidfWeight (totalDocs : Nat) (corpus : Corpus)
    (wf : WordFreq) (term : String) (count : Nat) : ℝ :=
  ((count : ℝ) / (totalWords wf : ℝ)) *
    Real.log ((totalDocs + 1 : ℝ) / ((documentFreq corpus term : ℝ) + 1))

/-- The tf_idf association list of one file. -/
noncomputable def tfidfOfFile (totalDocs : Nat) (corpus : Corpus)
    (wf : WordFreq) : List (String × ℝ) :=
  wf.map (fun p => (p.1, tfidfWeight totalDocs corpus wf p.1 p.2))

/-- Descending-by-weight order used by the keyword sort. -/
def weightGE (a b : String × ℝ) : Prop := b.2 ≤ a.2

noncomputable instance : DecidableRel weightGE :=
  fun a b => Real.decidableLE b.2 a.2

/-- The keyword list of one file: terms of the tf_idf items sorted by
descending weight (Python sorted with reverse, a stable sort), top 30. -/
noncomputable def keywordsOfFile (totalDocs : Nat) (corpus : Corpus)
    (wf : WordFreq) : List String :=
  (((tfidfOfFile totalDocs corpus wf).insertionSort weightGE).map
    Prod.fst).take 30

/-! ## Helper lemmas -/

theorem foldl_add_self {α : Type} (g : α → ℚ) (l : List α) (a : ℚ)
    (h : ∀ e ∈ l, g e = 0) : l.foldl (fun acc e => acc + g e) a = a := by
  induction l generalizing a with
  | nil => rfl
  | cons e rest ih =>
    have he : g e = 0 := h e (List.mem_cons_self e rest)
    simp only [List.foldl_cons, he, add_zero]
    exact ih a (fun x hx => h x (List.mem_cons_of_mem e hx))

theorem foldl_add_nonneg {α : Type} (g : α → ℚ) (l : List α) (a : ℚ)
    (ha : 0 ≤ a) (h : ∀ e ∈ l, 0 ≤ g e) :
    0 ≤ l.foldl (fun acc e => acc + g e) a := by
  induction l generalizing a with
  | nil => exact ha
  | cons e rest ih =>
    simp only [List.foldl_cons]
    exact ih (a + g e)
      (add_nonneg ha (h e (List.mem_cons_self e rest)))
      (fun x hx => h x (List.mem_cons_of_mem e hx))

/-- The judge finds no strength key in a serialized prosecution
evidence dict, so it reads the default 0. -/
theorem prosecution_dict_strength (e : PEvidence) :
    getNum [("type", JVal.str e.type), ("description", JVal.str e.description),
      ("severity", JVal.str e.severity), ("weight", JVal.num e.weight)]
      "strength" 0 = 0 := rfl

/-- The judge's per-evidence term vanishes on every serialized
prosecution evidence dict: it reads the keys category and strength,
while ProsecutionCase.to_dict emits type and weight. -/
theorem prosecutionStrengthTerm_toDict (e : PEvidence) :
    prosecutionStrengthTerm
      [("type", JVal.str e.type), ("description", JVal.str e.description),
       ("severity", JVal.str e.severity), ("weight", JVal.num e.weight)] = 0 := rfl

/-- The judge scores every serialized prosecution case at 0. -/
theorem calcProsecutionScore_toDict (filePath : String) (evs : List PEvidence) :
    calcProsecutionScore (prosecutionToJudgeInput filePath evs) = 0 := by
  unfold calcProsecutionScore prosecutionToJudgeInput
  simp only [List.foldl_map]
  have hbase : evs.foldl
      (fun acc e =>
        acc + prosecutionStrengthTerm
          [("type", JVal.str e.type), ("description", JVal.str e.description),
           ("severity", JVal.str e.severity), ("weight", JVal.num e.weight)])
      (0 : ℚ) = 0 :=
    foldl_add_self _ _ _ (fun e _ => prosecutionStrengthTerm_toDict e)
  split <;> simp [hbase]

/-- The judge's per-evidence defense term is nonnegative when the
serialized strength is. -/
theorem defenseStrengthTerm_nonneg (e : JDict) (h : 0 ≤ getNum e "strength" 0) :
    0 ≤ defenseStrengthTerm e := by
  unfold defenseStrengthTerm
  dsimp only
  split
  · exact mul_nonneg h (by norm_num)
  · exact h

/-- The defense score of a case whose evidence dicts carry nonnegative
strengths is nonnegative. -/
theorem calcDefenseScore_nonneg (c : JudgeInput)
    (hd : ∀ e ∈ c.evidence, 0 ≤ getNum e "strength" 0) :
    0 ≤ calcDefenseScore c := by
  unfold calcDefenseScore
  have hbase : (0 : ℚ) ≤
      c.evidence.foldl (fun acc e => acc + defenseStrengthTerm e) 0 :=
    foldl_add_nonneg _ _ _ le_rfl (fun e he => defenseStrengthTerm_nonneg e (hd e he))
  have hmin1 : (0 : ℚ) ≤ min 1 ((c.importChain.length : ℚ) * (1/5)) :=
    le_min (by norm_num) (mul_nonneg (Nat.cast_nonneg _) (by norm_num))
  have hmin2 : (0 : ℚ) ≤ min (4/5) ((c.referencedBy.length : ℚ) * (3/20)) :=
    le_min (by norm_num) (mul_nonneg (Nat.cast_nonneg _) (by norm_num))
  split
  · split
    · exact add_nonneg (add_nonneg hbase hmin1) hmin2
    · exact add_nonneg hbase hmin1
  · split
    · exact add_nonneg hbase hmin2
    · exact hbase

/-- With weights 0 and 1 the decision branch is the strong-defense
KEEP. -/
theorem makeDecision_zero_one (hr : Bool) (dis : List String) :
    makeDecision 0 1 hr dis = ("KEEP", min (19/20) (3/2)) := by
  unfold makeDecision QUARANTINE_THRESHOLD KEEP_THRESHOLD
  dsimp only
  rw [if_neg (by norm_num), if_pos (by norm_num)]
  norm_num

/-- With weights one half and one half the decision is review at
confidence one half. -/
theorem makeDecision_half_half (hr : Bool) (dis : List String) :
    makeDecision (1/2) (1/2) hr dis = ("REVIEW_NEEDED", 1/2) := by
  unfold makeDecision QUARANTINE_THRESHOLD KEEP_THRESHOLD REVIEW_THRESHOLD
  dsimp only
  rw [if_neg (by norm_num), if_neg (by norm_num), if_pos (by norm_num)]

/-- Whenever the prosecution score is 0 and the defense score is
nonnegative, the judge decides KEEP or REVIEW_NEEDED. -/
theorem judgeVerdict_zero_prosecution (p d : JudgeInput) (cons : Bool)
    (hp : calcProsecutionScore p = 0) (hd : 0 ≤ calcDefenseScore d) :
    (judgeVerdict p d cons).1 = "KEEP" ∨
    (judgeVerdict p d cons).1 = "REVIEW_NEEDED" := by
  unfold judgeVerdict
  rw [hp]
  generalize hS : calcDefenseScore d = S at hd ⊢
  dsimp only
  have h1 : 0 ≤ (if cons = true then S * (23/20) else S) := by
    split
    · exact mul_nonneg hd (by norm_num)
    · exact hd
  have h2 : 0 ≤ (if isHighRisk p.filePath = true
      then (if cons = true then S * (23/20) else S) * (5/4)
      else (if cons = true then S * (23/20) else S)) := by
    split
    · exact mul_nonneg h1 (by norm_num)
    · exact h1
  set DS : ℚ := (if isHighRisk p.filePath = true
      then (if cons = true then S * (23/20) else S) * (5/4)
      else (if cons = true then S * (23/20) else S)) with hDS
  rcases eq_or_lt_of_le h2 with heq | hlt
  · rw [if_neg (by rw [← heq]; norm_num)]
    right
    rw [makeDecision_half_half]
  · rw [if_pos (by rw [zero_add]; exact hlt)]
    left
    rw [zero_div, zero_add, div_self hlt.ne.symm, makeDecision_zero_one]

/-- C1: for every trial run through the FileCourt pipeline, the
verdict decision is KEEP or REVIEW_NEEDED, never QUARANTINE or DELETE:
ProsecutionCase.to_dict emits evidence under the keys type and weight
while the judge reads category and strength with defaults, so the
prosecution score is always 0 and only the KEEP and REVIEW_NEEDED
branches of _make_decision are reachable. -/
theorem pipeline_keep_or_review_C1 (pfp dfp : String)
    (pevs : List PEvidence) (devs : List DEvidence) (ic rb : List String)
    (cons : Bool) (hd : ∀ e ∈ devs, 0 ≤ e.strength) :
    calcProsecutionScore (prosecutionToJudgeInput pfp pevs) = 0 ∧
    ((judgeVerdict (prosecutionToJudgeInput pfp pevs)
        (defenseToJudgeInput dfp devs ic rb) cons).1 = "KEEP" ∨
     (judgeVerdict (prosecutionToJudgeInput pfp pevs)
        (defenseToJudgeInput dfp devs ic rb) cons).1 = "REVIEW_NEEDED") := by
  refine ⟨calcProsecutionScore_toDict pfp pevs, ?_⟩
  refine judgeVerdict_zero_prosecution _ _ cons
    (calcProsecutionScore_toDict pfp pevs) ?_
  refine calcDefenseScore_nonneg _ (fun e he => ?_)
  simp only [defenseToJudgeInput, List.mem_map] at he
  obtain ⟨ev, hev, rfl⟩ := he
  have hs : getNum [("category", JVal.str ev.category),
      ("description", JVal.str ev.description),
      ("strength", JVal.num ev.strength)] "strength" 0 = ev.strength := rfl
  rw [hs]
  exact hd ev hev

/-- Witness for C1 at a concrete trial. -/
theorem pipeline_keep_or_review_C1_witness :
    calcProsecutionScore (prosecutionToJudgeInput "old.py"
      [{ type := "orphan", description := "d", severity := "critical",
         weight := 4/5 }]) = 0 ∧
    ((judgeVerdict (prosecutionToJudgeInput "old.py"
        [{ type := "orphan", description := "d", severity := "critical",
           weight := 4/5 }])
        (defenseToJudgeInput "old.py"
          [{ category := "DOCUMENTED", description := "d", strength := 3/5 }]
          [] []) true).1 = "KEEP" ∨
     (judgeVerdict (prosecutionToJudgeInput "old.py"
        [{ type := "orphan", description := "d", severity := "critical",
           weight := 4/5 }])
        (defenseToJudgeInput "old.py"
          [{ category := "DOCUMENTED", description := "d", strength := 3/5 }]
          [] []) true).1 = "REVIEW_NEEDED") :=
  pipeline_keep_or_review_C1 "old.py" "old.py" _ _ [] [] true
    (by intro e he; simp only [List.mem_singleton] at he; rw [he]; norm_num)

/-- A case dict with empty evidence, import chain and reference lists,
as read by the judge. -/
def emptyJudgeInput (fp : String) : JudgeInput :=
  { filePath := fp, evidence := [], importChain := [], referencedBy := [] }

/-- C2: the Judge's decision table over d = prosecution_weight minus
defense_weight, with earlier rows taking precedence: d above 0.65 gives
QUARANTINE at min(0.95, 0.5 + d), downgraded to REVIEW_NEEDED(0.6) for a
high-risk file with a dissenting point; d below -0.55 gives KEEP at
min(0.95, 0.5 + abs d); abs d below 0.15 gives REVIEW_NEEDED(0.5);
remaining positive d gives REVIEW_NEEDED(0.55) if high-risk else
QUARANTINE(0.6 + 0.3 d); remaining nonpositive d gives
KEEP(0.6 + 0.3 abs d).  Moreover a judgment over two cases with empty
evidence, import chain and reference lists normalizes to weights
0.5/0.5 and yields REVIEW_NEEDED at confidence 0.5, never QUARANTINE. -/
theorem judge_decision_table_C2 (pw dw : ℚ) (hr : Bool) (dis : List String) :
    ((pw - dw > 13/20 → hr = true → dis ≠ [] →
        makeDecision pw dw hr dis = ("REVIEW_NEEDED", 3/5)) ∧
     (pw - dw > 13/20 → ¬(hr = true ∧ dis ≠ []) →
        makeDecision pw dw hr dis = ("QUARANTINE", min (19/20) (1/2 + (pw - dw)))) ∧
     (pw - dw < -(11/20) →
        makeDecision pw dw hr dis = ("KEEP", min (19/20) (1/2 + |pw - dw|))) ∧
     (|pw - dw| < 3/20 →
        makeDecision pw dw hr dis = ("REVIEW_NEEDED", 1/2)) ∧
     (3/20 ≤ pw - dw → pw - dw ≤ 13/20 → hr = true →
        makeDecision pw dw hr dis = ("REVIEW_NEEDED", 11/20)) ∧
     (3/20 ≤ pw - dw → pw - dw ≤ 13/20 → hr = false →
        makeDecision pw dw hr dis = ("QUARANTINE", 3/5 + (pw - dw) * (3/10))) ∧
     (-(11/20) ≤ pw - dw → pw - dw ≤ -(3/20) →
        makeDecision pw dw hr dis = ("KEEP", 3/5 + |pw - dw| * (3/10)))) ∧
    (∀ pfp dfp cons,
      judgeVerdict (emptyJudgeInput pfp) (emptyJudgeInput dfp) cons =
        ("REVIEW_NEEDED", 1/2, 1/2, 1/2)) := by
  constructor
  · unfold makeDecision QUARANTINE_THRESHOLD KEEP_THRESHOLD REVIEW_THRESHOLD
    dsimp only
    refine ⟨?_, ?_, ?_, ?_, ?_, ?_, ?_⟩
    · intro h hhr hdis
      rw [if_pos h, if_pos]
      simp [hhr, List.length_pos, hdis]
    · intro h hn
      rw [if_pos h, if_neg]
      simp only [Bool.and_eq_true, decide_eq_true_eq, List.length_pos]
      intro hc
      exact hn ⟨hc.1, hc.2⟩
    · intro h
      rw [if_neg (by linarith), if_pos h]
    · intro h
      have h1 : pw - dw < 3/20 := lt_of_abs_lt h
      have h2 : -(3/20) < pw - dw := neg_lt_of_abs_lt h
      rw [if_neg (by linarith), if_neg (by linarith), if_pos h]
    · intro h1 h2 hhr
      rw [if_neg (by linarith), if_neg (by linarith),
        if_neg (by rw [abs_of_pos (by linarith)]; linarith),
        if_pos (by linarith), if_pos hhr]
    · intro h1 h2 hhr
      rw [if_neg (by linarith), if_neg (by linarith),
        if_neg (by rw [abs_of_pos (by linarith)]; linarith),
        if_pos (by linarith), if_neg (by simp [hhr])]
    · intro h1 h2
      rw [if_neg (by linarith), if_neg (by linarith),
        if_neg (by rw [abs_of_nonpos (by linarith)]; linarith),
        if_neg (by linarith)]
  · intro pfp dfp cons
    have hp : calcProsecutionScore (emptyJudgeInput pfp) = 0 := rfl
    have hd : calcDefenseScore (emptyJudgeInput dfp) = 0 := rfl
    unfold judgeVerdict
    rw [hp, hd]
    dsimp only
    rw [if_neg]
    · rw [makeDecision_half_half]
    · split <;> split <;> norm_num

/-- Witness for C2 at concrete weights: d = 0.4 on a non-high-risk file
falls in the moderate-prosecution row. -/
theorem judge_decision_table_C2_witness :
    makeDecision (7/10) (3/10) false [] = ("QUARANTINE", 3/5 + (7/10 - 3/10) * (3/10)) := by
  have h := ((judge_decision_table_C2 (7/10) (3/10) false []).1).2.2.2.2.2.1
  exact h (by norm_num) (by norm_num) rfl

/-! ## Rounding lemmas -/

theorem roundHalfEven_bounds (q : ℚ) :
    ⌊q⌋ ≤ roundHalfEven q ∧ roundHalfEven q ≤ ⌊q⌋ + 1 := by
  unfold roundHalfEven
  dsimp only
  split_ifs <;> omega

theorem roundHalfEven_intCast (n : ℤ) : roundHalfEven (n : ℚ) = n := by
  unfold roundHalfEven
  dsimp only
  rw [Int.floor_intCast, if_pos (by rw [sub_self]; norm_num)]

theorem roundHalfEven_mono {p q : ℚ} (h : p ≤ q) :
    roundHalfEven p ≤ roundHalfEven q := by
  rcases lt_or_eq_of_le (Int.floor_le_floor h) with hf | hf
  · have h1 := (roundHalfEven_bounds p).2
    have h2 := (roundHalfEven_bounds q).1
    omega
  · have hr : p - (⌊p⌋ : ℚ) ≤ q - (⌊p⌋ : ℚ) := by linarith
    unfold roundHalfEven
    dsimp only
    rw [← hf]
    split_ifs <;> first | omega | linarith

theorem roundHalfEven_ge (q : ℚ) : q - 1/2 ≤ (roundHalfEven q : ℚ) := by
  have hfl : (⌊q⌋ : ℚ) ≤ q := Int.floor_le q
  have hfl2 : q - 1 < (⌊q⌋ : ℚ) := Int.sub_one_lt_floor q
  unfold roundHalfEven
  dsimp only
  split_ifs <;> push_cast <;> linarith

theorem round1_eq_self {q : ℚ} (n : ℤ) (h : q = (n : ℚ) / 10) :
    round1 q = q := by
  subst h
  unfold round1
  rw [show (10 : ℚ) * ((n : ℚ) / 10) = (n : ℚ) by ring, roundHalfEven_intCast]

theorem round1_mono {p q : ℚ} (h : p ≤ q) : round1 p ≤ round1 q := by
  unfold round1
  have h1 := roundHalfEven_mono
    (mul_le_mul_of_nonneg_left h (by norm_num : (0:ℚ) ≤ 10))
  have h2 : ((roundHalfEven (10 * p) : ℤ) : ℚ) ≤ ((roundHalfEven (10 * q) : ℤ) : ℚ) := by
    exact_mod_cast h1
  linarith

theorem round1_ge (q : ℚ) : q - 1/20 ≤ round1 q := by
  unfold round1
  have h := roundHalfEven_ge (10 * q)
  linarith

theorem round1_nonneg {q : ℚ} (h : 0 ≤ q) : 0 ≤ round1 q := by
  unfold round1
  have h1 := (roundHalfEven_bounds (10 * q)).1
  have h2 : (0:ℤ) ≤ ⌊10 * q⌋ := Int.floor_nonneg.mpr (by linarith)
  have h3 : ((0:ℤ) : ℚ) ≤ ((roundHalfEven (10 * q) : ℤ) : ℚ) := by
    exact_mod_cast le_trans h2 h1
  push_cast at h3
  linarith

/-! ## Prosecutor score lemmas -/

theorem foldl_add_shift {α : Type} (g : α → ℚ) (l : List α) (a : ℚ) :
    l.foldl (fun acc x => acc + g x) a = a + l.foldl (fun acc x => acc + g x) 0 := by
  induction l generalizing a with
  | nil => simp
  | cons x rest ih =>
    simp only [List.foldl_cons, zero_add]
    rw [ih (a + g x), ih (g x)]
    ring

theorem sumPosWeights_cons (e : PEvidence) (evs : List PEvidence) :
    sumPosWeights (e :: evs) = max 0 e.weight + sumPosWeights evs := by
  unfold sumPosWeights
  simp only [List.foldl_cons, zero_add]
  exact foldl_add_shift _ evs (max 0 e.weight)

theorem sumPosWeights_nonneg (evs : List PEvidence) : 0 ≤ sumPosWeights evs :=
  foldl_add_nonneg _ _ _ le_rfl (fun e _ => le_max_left 0 e.weight)

theorem sumPosWeights_append_single (evs : List PEvidence) (e : PEvidence) :
    sumPosWeights (evs ++ [e]) = sumPosWeights evs + max 0 e.weight := by
  unfold sumPosWeights
  rw [List.foldl_append]
  rfl

theorem sevMult_fold_mem (evs : List PEvidence) (m : ℚ)
    (hm : m = 1 ∨ m = 6/5 ∨ m = 3/2) :
    (evs.foldl
      (fun m e =>
        if e.severity = "critical" then max m (3/2)
        else if e.severity = "major" then max m (6/5)
        else m) m = 1 ∨
     evs.foldl
      (fun m e =>
        if e.severity = "critical" then max m (3/2)
        else if e.severity = "major" then max m (6/5)
        else m) m = 6/5 ∨
     evs.foldl
      (fun m e =>
        if e.severity = "critical" then max m (3/2)
        else if e.severity = "major" then max m (6/5)
        else m) m = 3/2) := by
  induction evs generalizing m with
  | nil => exact hm
  | cons e rest ih =>
    simp only [List.foldl_cons]
    refine ih _ ?_
    rcases hm with h | h | h <;> subst h <;> split_ifs <;>
      simp [max_eq_right, max_eq_left] <;> norm_num

theorem sevMult_cases (evs : List PEvidence) :
    sevMult evs = 1 ∨ sevMult evs = 6/5 ∨ sevMult evs = 3/2 :=
  sevMult_fold_mem evs 1 (Or.inl rfl)

theorem sevMult_ge_one (evs : List PEvidence) : 1 ≤ sevMult evs := by
  rcases sevMult_cases evs with h | h | h <;> rw [h] <;> norm_num

theorem sevMult_append_single (evs : List PEvidence) (e : PEvidence) :
    sevMult evs ≤ sevMult (evs ++ [e]) := by
  unfold sevMult
  rw [List.foldl_append]
  simp only [List.foldl_cons, List.foldl_nil]
  split_ifs
  · exact le_max_left _ _
  · exact le_max_left _ _
  · exact le_rfl

theorem sumPosWeights_grid (evs : List PEvidence)
    (h : ∀ e ∈ evs, ∃ k : ℤ, e.weight = (k : ℚ) / 20) :
    ∃ K : ℤ, 0 ≤ K ∧ sumPosWeights evs = (K : ℚ) / 20 := by
  induction evs with
  | nil => exact ⟨0, le_rfl, by unfold sumPosWeights; simp⟩
  | cons e rest ih =>
    obtain ⟨K, hK0, hKeq⟩ := ih (fun x hx => h x (List.mem_cons_of_mem e hx))
    obtain ⟨k, hk⟩ := h e (List.mem_cons_self e rest)
    refine ⟨max 0 k + K, by positivity, ?_⟩
    rw [sumPosWeights_cons, hKeq, hk]
    have hmax : max (0 : ℚ) ((k : ℚ) / 20) = ((max 0 k : ℤ) : ℚ) / 20 := by
      rcases le_total (k : ℤ) 0 with hk0 | hk0
      · rw [max_eq_left hk0, max_eq_left]
        · norm_num
        · have : (k : ℚ) ≤ 0 := by exact_mod_cast hk0
          linarith
      · rw [max_eq_right hk0, max_eq_right]
        have : (0 : ℚ) ≤ (k : ℚ) := by exact_mod_cast hk0
        linarith
    rw [hmax]
    push_cast
    ring

theorem min_score_is_tenth (K : ℤ) (m : ℚ)
    (hm : m = 1 ∨ m = 6/5 ∨ m = 3/2) :
    ∃ n : ℤ, min 100 ((K : ℚ) / 20 * 40 * m) = (n : ℚ) / 10 := by
  have key : ∃ j : ℤ, (K : ℚ) / 20 * 40 * m = (j : ℚ) / 10 := by
    rcases hm with h | h | h <;> subst h
    · exact ⟨20 * K, by push_cast; ring⟩
    · exact ⟨24 * K, by push_cast; ring⟩
    · exact ⟨30 * K, by push_cast; ring⟩
  obtain ⟨j, hj⟩ := key
  rcases le_total (100 : ℚ) ((K : ℚ) / 20 * 40 * m) with h | h
  · exact ⟨1000, by rw [min_eq_left h]; norm_num⟩
  · exact ⟨j, by rw [min_eq_right h]; exact hj⟩

/-- On the weight grid actually emitted by the nine checks (integer
multiples of 0.05) the rounding in _calculate_score is the identity. -/
theorem calculateScore_formula (evs : List PEvidence)
    (h : ∀ e ∈ evs, ∃ k : ℤ, e.weight = (k : ℚ) / 20) :
    calculateScore evs = min 100 (sumPosWeights evs * 40 * sevMult evs) := by
  unfold calculateScore
  split
  · subst ‹evs = []›
    unfold sumPosWeights sevMult
    simp
  · obtain ⟨K, _, hKeq⟩ := sumPosWeights_grid evs h
    obtain ⟨n, hn⟩ := min_score_is_tenth K (sevMult evs) (sevMult_cases evs)
    rw [hKeq]
    exact round1_eq_self n hn

/-- Concrete evidence items used in witnesses and counterexamples. -/
def evDupCritical : PEvidence :=
  { type := "duplicate", description := "d", severity := "critical", weight := 9/10 }

def evOrphanCritical : PEvidence :=
  { type := "orphan", description := "d", severity := "critical", weight := 4/5 }

def evTinyMinor : PEvidence :=
  { type := "tiny_file", description := "d", severity := "minor", weight := 3/10 }

def evObsoleteMajor : PEvidence :=
  { type := "obsolete_name", description := "d", severity := "major", weight := 7/10 }

theorem calculateScore_dup_orphan :
    calculateScore [evDupCritical, evOrphanCritical] = 100 := by
  have hS : sumPosWeights [evDupCritical, evOrphanCritical] = 17/10 := by
    unfold sumPosWeights evDupCritical evOrphanCritical
    simp only [List.foldl_cons, List.foldl_nil]
    rw [max_eq_right (by norm_num : (0:ℚ) ≤ 9/10),
      max_eq_right (by norm_num : (0:ℚ) ≤ 4/5)]
    norm_num
  have hM : sevMult [evDupCritical, evOrphanCritical] = 3/2 := by
    unfold sevMult evDupCritical evOrphanCritical
    simp only [List.foldl_cons, List.foldl_nil, if_true]
    rw [max_eq_right (by norm_num : (1:ℚ) ≤ 3/2), max_self]
  unfold calculateScore
  rw [if_neg (by simp [evDupCritical, evOrphanCritical]), hS, hM]
  rw [show min (100:ℚ) (17/10 * 40 * (3/2)) = 100 from min_eq_left (by norm_num)]
  exact round1_eq_self 1000 (by norm_num)

/-- C3 counterexample: with two critical items of weights 0.9 and 0.8
the score is capped at 100 and build_case sets the QUARANTINE
confidence to min(0.95, score/100) = 0.95, not score/100 = 1. -/
theorem prosecutor_confidence_C3_counterexample :
    (buildVerdict [evDupCritical, evOrphanCritical]).verdict = "QUARANTINE" ∧
    (buildVerdict [evDupCritical, evOrphanCritical]).score = 100 ∧
    (buildVerdict [evDupCritical, evOrphanCritical]).confidence ≠
      (buildVerdict [evDupCritical, evOrphanCritical]).score / 100 := by
  unfold buildVerdict
  rw [calculateScore_dup_orphan]
  norm_num

/-- C3 (amended): for evidence on the emitted weight grid the score
equals min(100, sum of positive weights x 40 x severity multiplier);
the verdict thresholds are 70 and 50; the confidence is score/100,
capped at 0.95 for QUARANTINE and floored at 0.3 for KEEP. -/
theorem prosecutor_score_verdict_C3 (evs : List PEvidence)
    (h : ∀ e ∈ evs, ∃ k : ℤ, e.weight = (k : ℚ) / 20) :
    (buildVerdict evs).score = min 100 (sumPosWeights evs * 40 * sevMult evs) ∧
    (70 ≤ (buildVerdict evs).score →
      (buildVerdict evs).verdict = "QUARANTINE" ∧
      (buildVerdict evs).confidence = min (19/20) ((buildVerdict evs).score / 100)) ∧
    (50 ≤ (buildVerdict evs).score → (buildVerdict evs).score < 70 →
      (buildVerdict evs).verdict = "REVIEW_NEEDED" ∧
      (buildVerdict evs).confidence = (buildVerdict evs).score / 100) ∧
    ((buildVerdict evs).score < 50 →
      (buildVerdict evs).verdict = "KEEP" ∧
      (buildVerdict evs).confidence = max (3/10) ((buildVerdict evs).score / 100)) := by
  have hs := calculateScore_formula evs h
  unfold buildVerdict
  dsimp only
  split_ifs with h1 h2
  · exact ⟨hs, fun _ => ⟨rfl, rfl⟩, fun _ hlt => absurd h1 (not_le.mpr hlt),
      fun hlt => absurd (le_trans (by norm_num) h1) (not_le.mpr hlt)⟩
  · exact ⟨hs, fun hge => absurd hge h1, fun _ _ => ⟨rfl, rfl⟩,
      fun hlt => absurd h2 (not_le.mpr hlt)⟩
  · exact ⟨hs, fun hge => absurd hge h1, fun hge _ => absurd hge h2,
      fun _ => ⟨rfl, rfl⟩⟩

/-- Witness for C3 (amended) at one critical orphan item. -/
theorem prosecutor_score_verdict_C3_witness :
    (buildVerdict [evOrphanCritical]).score =
      min 100 (sumPosWeights [evOrphanCritical] * 40 * sevMult [evOrphanCritical]) ∧
    (70 ≤ (buildVerdict [evOrphanCritical]).score →
      (buildVerdict [evOrphanCritical]).verdict = "QUARANTINE" ∧
      (buildVerdict [evOrphanCritical]).confidence =
        min (19/20) ((buildVerdict [evOrphanCritical]).score / 100)) ∧
    (50 ≤ (buildVerdict [evOrphanCritical]).score →
      (buildVerdict [evOrphanCritical]).score < 70 →
      (buildVerdict [evOrphanCritical]).verdict = "REVIEW_NEEDED" ∧
      (buildVerdict [evOrphanCritical]).confidence =
        (buildVerdict [evOrphanCritical]).score / 100) ∧
    ((buildVerdict [evOrphanCritical]).score < 50 →
      (buildVerdict [evOrphanCritical]).verdict = "KEEP" ∧
      (buildVerdict [evOrphanCritical]).confidence =
        max (3/10) ((buildVerdict [evOrphanCritical]).score / 100)) :=
  prosecutor_score_verdict_C3 [evOrphanCritical]
    (by
      intro e he
      simp only [List.mem_singleton] at he
      subst he
      exact ⟨16, by norm_num [evOrphanCritical]⟩)

/-- C9: appending a further evidence item of positive weight never
decreases the prosecution score, whatever its severity. -/
theorem prosecution_score_monotone_C9 (evs : List PEvidence) (e : PEvidence)
    (h : 0 < e.weight) :
    calculateScore evs ≤ calculateScore (evs ++ [e]) := by
  have happ : evs ++ [e] ≠ [] := by simp
  have hposS := sumPosWeights_nonneg evs
  have hposS' := sumPosWeights_nonneg (evs ++ [e])
  have hm1 := sevMult_ge_one evs
  have hm1' := sevMult_ge_one (evs ++ [e])
  have hSle : sumPosWeights evs ≤ sumPosWeights (evs ++ [e]) := by
    rw [sumPosWeights_append_single]
    have : (0:ℚ) ≤ max 0 e.weight := le_max_left 0 e.weight
    linarith
  have hmle := sevMult_append_single evs e
  have hprod : sumPosWeights evs * 40 * sevMult evs ≤
      sumPosWeights (evs ++ [e]) * 40 * sevMult (evs ++ [e]) := by
    have h40 : sumPosWeights evs * 40 ≤ sumPosWeights (evs ++ [e]) * 40 := by
      linarith
    exact mul_le_mul h40 hmle (by linarith) (by linarith)
  unfold calculateScore
  rw [if_neg happ]
  split
  · refine round1_nonneg (le_min (by norm_num) ?_)
    have hx : (0:ℚ) ≤ sumPosWeights (evs ++ [e]) * 40 :=
      mul_nonneg hposS' (by norm_num)
    exact mul_nonneg hx (by linarith)
  · exact round1_mono (min_le_min le_rfl hprod)

/-- Witness for C9 at a concrete list and item. -/
theorem prosecution_score_monotone_C9_witness :
    calculateScore [evTinyMinor] ≤
      calculateScore ([evTinyMinor] ++ [evObsoleteMajor]) :=
  prosecution_score_monotone_C9 _ _ (by norm_num [evObsoleteMajor])

/-! ## The legacy_util_old.py scenario (C4) -/

theorem sumPosWeights_append (l1 l2 : List PEvidence) :
    sumPosWeights (l1 ++ l2) = sumPosWeights l1 + sumPosWeights l2 := by
  unfold sumPosWeights
  rw [List.foldl_append]
  exact foldl_add_shift _ l2 _

theorem sevMult_le (evs : List PEvidence) : sevMult evs ≤ 3/2 := by
  rcases sevMult_cases evs with h | h | h <;> rw [h] <;> norm_num

theorem sevMult_fold_ge (l : List PEvidence) (m : ℚ) :
    m ≤ l.foldl
      (fun m e =>
        if e.severity = "critical" then max m (3/2)
        else if e.severity = "major" then max m (6/5)
        else m) m := by
  induction l generalizing m with
  | nil => exact le_rfl
  | cons x rest ih =>
    simp only [List.foldl_cons]
    refine le_trans ?_ (ih _)
    split_ifs
    · exact le_max_left _ _
    · exact le_max_left _ _
    · exact le_rfl

theorem sevMult_critical (evs : List PEvidence) (e : PEvidence)
    (he : e ∈ evs) (hc : e.severity = "critical") : sevMult evs = 3/2 := by
  refine le_antisymm (sevMult_le evs) ?_
  unfold sevMult
  have key : ∀ (l : List PEvidence) (m : ℚ), e ∈ l →
      (3/2 : ℚ) ≤ l.foldl
        (fun m e =>
          if e.severity = "critical" then max m (3/2)
          else if e.severity = "major" then max m (6/5)
          else m) m := by
    intro l
    induction l with
    | nil => intro m hm; cases hm
    | cons x rest ih =>
      intro m hm
      rcases List.mem_cons.mp hm with rfl | hmem
      · simp only [List.foldl_cons]
        refine le_trans ?_ (sevMult_fold_ge rest _)
        rw [if_pos hc]
        exact le_max_right _ _
      · simp only [List.foldl_cons]
        exact ih _ hmem
  exact key evs 1 he

/-- The orphan evidence of a file with no importers and no imports. -/
def orphanIsolatedEvidence : PEvidence :=
  { type := "orphan",
    description := "File is completely isolated - no imports and nothing imports it",
    severity := "critical", weight := 4/5 }

/-- The obsolete-name evidence for a filename matching the first
obsolete pattern. -/
def obsoleteOldEvidence : PEvidence :=
  { type := "obsolete_name",
    description := "Filename contains obsolete marker: _old\\b",
    severity := "major", weight := 7/10 }

/-- C4 counterexample: contrary to the scenario's premise, the filename
legacy_util_old.py does match the Judge's high-risk vocabulary (the
pattern util occurs in the name), so the Judge treats the file as
high-risk. -/
theorem legacy_high_risk_C4_counterexample :
    isHighRisk "legacy_util_old.py" = true := by decide

/-- C4 (amended): for legacy_util_old.py with no importers and no
imports, the prosecutor's evidence contains the orphan item (weight
0.8, critical) and the obsolete-name item (weight 0.7, major), whatever
the other checks add; the prosecution score is at least 70, so the file
is a suspect at threshold 0.5; but the file does count as high-risk for
the Judge, and the conservative-mode Judge fed the pipeline's case
dicts decides KEEP or REVIEW_NEEDED, not QUARANTINE. -/
theorem legacy_scenario_C4 (dup rest : List PEvidence) (devs : List DEvidence)
    (ic rb : List String) (hd : ∀ e ∈ devs, 0 ≤ e.strength) :
    checkOrphanStatus [] [] = [orphanIsolatedEvidence] ∧
    checkObsoleteNaming (strToLower (pathName "legacy_util_old.py")) =
      [obsoleteOldEvidence] ∧
    70 ≤ calculateScore (checkOrphanStatus [] [] ++ dup ++
      checkObsoleteNaming (strToLower (pathName "legacy_util_old.py")) ++ rest) ∧
    isSuspect (checkOrphanStatus [] [] ++ dup ++
      checkObsoleteNaming (strToLower (pathName "legacy_util_old.py")) ++ rest)
      (1/2) = true ∧
    isHighRisk "legacy_util_old.py" = true ∧
    ((judgeVerdict
        (prosecutionToJudgeInput "legacy_util_old.py"
          (checkOrphanStatus [] [] ++ dup ++
            checkObsoleteNaming (strToLower (pathName "legacy_util_old.py")) ++
            rest))
        (defenseToJudgeInput "legacy_util_old.py" devs ic rb) true).1 = "KEEP" ∨
     (judgeVerdict
        (prosecutionToJudgeInput "legacy_util_old.py"
          (checkOrphanStatus [] [] ++ dup ++
            checkObsoleteNaming (strToLower (pathName "legacy_util_old.py")) ++
            rest))
        (defenseToJudgeInput "legacy_util_old.py" devs ic rb) true).1 =
       "REVIEW_NEEDED") := by
  have hEq1 : checkOrphanStatus [] [] = [orphanIsolatedEvidence] := rfl
  have hEq2 : checkObsoleteNaming (strToLower (pathName "legacy_util_old.py")) =
      [obsoleteOldEvidence] := rfl
  have hsumo : sumPosWeights [orphanIsolatedEvidence] = 4/5 := by
    unfold sumPosWeights
    simp only [List.foldl_cons, List.foldl_nil, zero_add]
    rw [show orphanIsolatedEvidence.weight = 4/5 from rfl,
      max_eq_right (by norm_num : (0:ℚ) ≤ 4/5)]
  have hsumb : sumPosWeights [obsoleteOldEvidence] = 7/10 := by
    unfold sumPosWeights
    simp only [List.foldl_cons, List.foldl_nil, zero_add]
    rw [show obsoleteOldEvidence.weight = 7/10 from rfl,
      max_eq_right (by norm_num : (0:ℚ) ≤ 7/10)]
  have hsum : 3/2 ≤ sumPosWeights (checkOrphanStatus [] [] ++ dup ++
      checkObsoleteNaming (strToLower (pathName "legacy_util_old.py")) ++ rest) := by
    rw [hEq1, hEq2, sumPosWeights_append, sumPosWeights_append,
      sumPosWeights_append, hsumo, hsumb]
    have h1 := sumPosWeights_nonneg dup
    have h2 := sumPosWeights_nonneg rest
    linarith
  have hmem : orphanIsolatedEvidence ∈ (checkOrphanStatus [] [] ++ dup ++
      checkObsoleteNaming (strToLower (pathName "legacy_util_old.py")) ++ rest) := by
    rw [hEq1]
    simp
  have hcrit : sevMult (checkOrphanStatus [] [] ++ dup ++
      checkObsoleteNaming (strToLower (pathName "legacy_util_old.py")) ++ rest) =
      3/2 :=
    sevMult_critical _ orphanIsolatedEvidence hmem rfl
  have hscore : 70 ≤ calculateScore (checkOrphanStatus [] [] ++ dup ++
      checkObsoleteNaming (strToLower (pathName "legacy_util_old.py")) ++ rest) := by
    unfold calculateScore
    rw [if_neg (by rw [hEq1]; simp)]
    have h90 : (90:ℚ) ≤ min 100 (sumPosWeights (checkOrphanStatus [] [] ++ dup ++
        checkObsoleteNaming (strToLower (pathName "legacy_util_old.py")) ++ rest) *
        40 * sevMult (checkOrphanStatus [] [] ++ dup ++
        checkObsoleteNaming (strToLower (pathName "legacy_util_old.py")) ++ rest)) := by
      rw [hcrit]
      refine le_min (by norm_num) ?_
      nlinarith [hsum]
    have hr := round1_ge (min 100 (sumPosWeights (checkOrphanStatus [] [] ++ dup ++
        checkObsoleteNaming (strToLower (pathName "legacy_util_old.py")) ++ rest) *
        40 * sevMult (checkOrphanStatus [] [] ++ dup ++
        checkObsoleteNaming (strToLower (pathName "legacy_util_old.py")) ++ rest)))
    linarith
  have hconf : (1/2 : ℚ) ≤ (buildVerdict (checkOrphanStatus [] [] ++ dup ++
      checkObsoleteNaming (strToLower (pathName "legacy_util_old.py")) ++ rest)).confidence := by
    unfold buildVerdict
    dsimp only
    rw [if_pos hscore]
    refine le_min (by norm_num) ?_
    linarith
  refine ⟨hEq1, hEq2, hscore, ?_, by decide, ?_⟩
  · unfold isSuspect
    simp only [ge_iff_le, decide_eq_true_eq]
    exact hconf
  · refine judgeVerdict_zero_prosecution _ _ true
      (calcProsecutionScore_toDict _ _) ?_
    refine calcDefenseScore_nonneg _ (fun e he => ?_)
    simp only [defenseToJudgeInput, List.mem_map] at he
    obtain ⟨ev, hev, rfl⟩ := he
    have hs : getNum [("category", JVal.str ev.category),
        ("description", JVal.str ev.description),
        ("strength", JVal.num ev.strength)] "strength" 0 = ev.strength := rfl
    rw [hs]
    exact hd ev hev

/-- The defense evidence used by the C4 witness. -/
def docEvidence : DEvidence :=
  { category := "DOCUMENTED", description := "d", strength := 3/5 }

/-- Witness for C4 (amended) at a concrete instantiation. -/
theorem legacy_scenario_C4_witness :
    isSuspect (checkOrphanStatus [] [] ++ [] ++
      checkObsoleteNaming (strToLower (pathName "legacy_util_old.py")) ++ [])
      (1/2) = true ∧
    ((judgeVerdict
        (prosecutionToJudgeInput "legacy_util_old.py"
          (checkOrphanStatus [] [] ++ [] ++
            checkObsoleteNaming (strToLower (pathName "legacy_util_old.py")) ++ []))
        (defenseToJudgeInput "legacy_util_old.py" [docEvidence] [] []) true).1 =
       "KEEP" ∨
     (judgeVerdict
        (prosecutionToJudgeInput "legacy_util_old.py"
          (checkOrphanStatus [] [] ++ [] ++
            checkObsoleteNaming (strToLower (pathName "legacy_util_old.py")) ++ []))
        (defenseToJudgeInput "legacy_util_old.py" [docEvidence] [] []) true).1 =
       "REVIEW_NEEDED") := by
  have h := legacy_scenario_C4 [] [] [docEvidence] [] []
    (by
      intro e he
      simp only [List.mem_singleton] at he
      rw [he]
      norm_num [docEvidence])
  exact ⟨h.2.2.2.1, h.2.2.2.2.2⟩

/-! ## QuarantineManager lemmas -/

/-- A dry-run move of an existing file succeeds and leaves the state
untouched. -/
theorem moveSingleFile_dry (st : QState) (f : String) (reasons : List String)
    (sid now : String) (h : (st.fs.lookup f).isSome) :
    moveSingleFile st f reasons sid now true =
      ({ path := f, success := true, dryRun := some true, error := none,
         quarantinePath := some ("quarantine/" ++ sid ++ "/" ++ f) },
       st, [.fileStep f]) := by
  obtain ⟨c, hc⟩ := Option.isSome_iff_exists.mp h
  unfold moveSingleFile
  rw [hc]
  rfl

/-- The dry-run move loop returns one success per existing file and
leaves the state untouched. -/
theorem moveLoop_dry (files : List String) (st : QState)
    (reasons : List (String × List String)) (sid now : String)
    (hex : ∀ f ∈ files, (st.fs.lookup f).isSome) :
    (moveLoop st files reasons sid now true).2.2.1 = st ∧
    (moveLoop st files reasons sid now true).1.length = files.length ∧
    ∀ r ∈ (moveLoop st files reasons sid now true).1,
      r.success = true ∧ r.dryRun = some true := by
  induction files generalizing st with
  | nil => exact ⟨rfl, rfl, by intro r hr; cases hr⟩
  | cons f rest ih =>
    have hf := hex f (List.mem_cons_self f rest)
    have hrest : ∀ x ∈ rest, (st.fs.lookup x).isSome :=
      fun x hx => hex x (List.mem_cons_of_mem f hx)
    obtain ⟨ihst, ihlen, ihres⟩ := ih st hrest
    unfold moveLoop
    rw [moveSingleFile_dry st f ((reasons.lookup f).getD []) sid now hf]
    dsimp only
    refine ⟨ihst, by simp [ihlen], ?_⟩
    intro r hr
    rcases List.mem_cons.mp hr with rfl | hmem
    · exact ⟨rfl, rfl⟩
    · exact ihres r hmem

/-- A dry-run restore never changes the state, whatever the manifest
holds. -/
theorem restoreFile_dry_state (st : QState) (p now : String) :
    (restoreFile st p now true).2.1 = st := by
  unfold restoreFile
  split
  · rfl
  · split
    · rfl
    · split
      · rfl
      · rfl

/-- C5: dry-run move_to_quarantine over existing files returns one
success-marked result per file and mutates nothing: the filesystem, the
in-memory manifest and the on-disk manifest are unchanged, no session
is recorded and no restore script is written; and dry-run restore_file
likewise changes no state. -/
theorem quarantine_dry_run_C5 (st : QState) (files : List String)
    (reasons : List (String × List String)) (sid now : String)
    (hex : ∀ f ∈ files, (st.fs.lookup f).isSome) :
    ((moveToQuarantine st files reasons sid now true).1.length = files.length ∧
     (∀ r ∈ (moveToQuarantine st files reasons sid now true).1,
        r.success = true ∧ r.dryRun = some true) ∧
     (moveToQuarantine st files reasons sid now true).2.1 = st) ∧
    (∀ (st2 : QState) (p now2 : String),
      (restoreFile st2 p now2 true).2.1 = st2) := by
  obtain ⟨hst, hlen, hres⟩ := moveLoop_dry files st reasons sid now hex
  unfold moveToQuarantine
  rw [if_neg (by simp)]
  exact ⟨⟨hlen, hres, hst⟩, fun st2 p now2 => restoreFile_dry_state st2 p now2⟩

/-- An empty manifest for the witness states. -/
def emptyManifest : Manifest :=
  { created := "t0"
    lastUpdated := "t0"
    quarantineSessions := []
    files := [] }

/-- A two-file repository state for the C5 witness. -/
def c5State : QState :=
  { fs := [("a.py", "A"), ("b.py", "B")]
    manifest := emptyManifest
    diskManifest := none }

/-- Witness for C5: dry-run quarantine of two existing files. -/
theorem quarantine_dry_run_C5_witness :
    ((moveToQuarantine c5State ["a.py", "b.py"] [] "s1" "t1" true).1.length =
      (["a.py", "b.py"] : List String).length ∧
     (∀ r ∈ (moveToQuarantine c5State ["a.py", "b.py"] [] "s1" "t1" true).1,
        r.success = true ∧ r.dryRun = some true) ∧
     (moveToQuarantine c5State ["a.py", "b.py"] [] "s1" "t1" true).2.1 = c5State) ∧
    (∀ (st2 : QState) (p now2 : String),
      (restoreFile st2 p now2 true).2.1 = st2) :=
  quarantine_dry_run_C5 c5State ["a.py", "b.py"] [] "s1" "t1"
    (by intro f hf; fin_cases hf <;> decide)

/-- C6: restoring a path whose manifest record is already marked
restored fails with the error File already restored and changes
nothing: the state (filesystem, in-memory manifest, on-disk manifest)
is returned untouched. -/
theorem restore_already_restored_C6 (st : QState) (p now : String)
    (dryRun : Bool) (record : FileRecord)
    (hm : st.manifest.files.lookup p = some record)
    (hr : record.restored = true) :
    restoreFile st p now dryRun =
      ({ path := p, success := false, dryRun := none,
         error := some "File already restored", quarantinePath := none },
       st, [.fileStep p]) := by
  unfold restoreFile
  rw [hm]
  dsimp only
  rw [if_pos hr]

/-- An already-restored manifest record, for the C6 witness. -/
def c6Record : FileRecord :=
  { originalPath := "a.py"
    quarantinePath := "quarantine/s1/a.py"
    sessionId := "s1"
    timestamp := "t0"
    reasons := []
    restored := true
    restoredAt := some "t1"
    deleted := false }

/-- A state holding one already-restored record, for the C6 witness. -/
def c6State : QState :=
  { fs := []
    manifest :=
      { created := "t0"
        lastUpdated := "t1"
        quarantineSessions :=
          [{ sessionId := "s1", timestamp := "t0", filesCount := 1,
             files := ["a.py"] }]
        files := [("a.py", c6Record)] }
    diskManifest := none }

/-- Witness for C6 at a concrete already-restored record. -/
theorem restore_already_restored_C6_witness :
    restoreFile c6State "a.py" "t2" false =
      ({ path := "a.py", success := false, dryRun := none,
         error := some "File already restored", quarantinePath := none },
       c6State, [.fileStep "a.py"]) :=
  restore_already_restored_C6 c6State "a.py" "t2" false
    { originalPath := "a.py", quarantinePath := "quarantine/s1/a.py",
      sessionId := "s1", timestamp := "t0", reasons := [],
      restored := true, restoredAt := some "t1", deleted := false }
    (by decide) rfl

/-! ## Manifest-rewrite timing (C7) -/

theorem moveSingleFile_events (st : QState) (f : String) (reasons : List String)
    (sid now : String) (dryRun : Bool) :
    (moveSingleFile st f reasons sid now dryRun).2.2 = [.fileStep f] := by
  unfold moveSingleFile
  split <;> rfl

theorem moveLoop_no_save (files : List String) (st : QState)
    (reasons : List (String × List String)) (sid now : String) (dryRun : Bool) :
    ∀ e ∈ (moveLoop st files reasons sid now dryRun).2.2.2, isSave e = false := by
  induction files generalizing st with
  | nil => intro e he; cases he
  | cons f rest ih =>
    intro e he
    unfold moveLoop at he
    dsimp only at he
    rw [moveSingleFile_events] at he
    rcases List.mem_append.mp he with h1 | h2
    · rcases List.mem_singleton.mp h1 with rfl
      rfl
    · exact ih _ e h2

theorem saveCount_append (l1 l2 : List QEvent) :
    saveCount (l1 ++ l2) = saveCount l1 + saveCount l2 := by
  unfold saveCount
  exact List.countP_append _ _ _

theorem saveCount_zero_of_no_save (l : List QEvent)
    (h : ∀ e ∈ l, isSave e = false) : saveCount l = 0 := by
  unfold saveCount
  exact List.countP_eq_zero.mpr (by simpa using h)

theorem noStepAfterSave_of_no_save (l : List QEvent)
    (h : ∀ e ∈ l, isSave e = false) : noStepAfterSave l = true := by
  induction l with
  | nil => rfl
  | cons e rest ih =>
    unfold noStepAfterSave
    rw [h e (List.mem_cons_self e rest)]
    simp only [Bool.false_eq_true, if_false, Bool.true_and]
    exact ih (fun x hx => h x (List.mem_cons_of_mem e hx))

theorem noStepAfterSave_append_save (l : List QEvent)
    (h : ∀ e ∈ l, isSave e = false) :
    noStepAfterSave (l ++ [QEvent.save]) = true := by
  induction l with
  | nil => rfl
  | cons e rest ih =>
    rw [List.cons_append]
    unfold noStepAfterSave
    rw [h e (List.mem_cons_self e rest)]
    simp only [Bool.false_eq_true, if_false, Bool.true_and]
    exact ih (fun x hx => h x (List.mem_cons_of_mem e hx))

theorem restoreFile_saveCount (st : QState) (p now : String) (dryRun : Bool) :
    saveCount (restoreFile st p now dryRun).2.2 =
      if dryRun = true then 0
      else if (restoreFile st p now dryRun).1.success = true then 1 else 0 := by
  unfold restoreFile
  split
  · simp [saveCount, List.countP, List.countP.go, isSave]
  · split
    · simp [saveCount, List.countP, List.countP.go, isSave]
    · split
      · simp [saveCount, List.countP, List.countP.go, isSave]
      · split
        · subst ‹dryRun = true›
          simp [saveCount, List.countP, List.countP.go, isSave]
        · simp [saveCount, List.countP, List.countP.go, isSave,
            ‹¬dryRun = true›]

theorem restoreLoop_saveCount (files : List String) (st : QState)
    (now : String) (dryRun : Bool) :
    saveCount (restoreLoop st files now dryRun).2.2 =
      if dryRun = true then 0
      else ((restoreLoop st files now dryRun).1.filter
        (fun r => r.success)).length := by
  induction files generalizing st with
  | nil =>
    unfold restoreLoop saveCount
    split <;> rfl
  | cons f rest ih =>
    unfold restoreLoop
    dsimp only
    rw [saveCount_append, restoreFile_saveCount, ih]
    rcases Bool.eq_false_or_eq_true dryRun with hd | hd
    · subst hd
      simp
    · subst hd
      simp only [Bool.false_eq_true, if_false, List.filter_cons]
      rcases Bool.eq_false_or_eq_true ((restoreFile st f now false).1.success)
        with hs | hs
      · simp [hs, Nat.add_comm]
      · simp [hs]

/-- C7 (amended): during one move_to_quarantine call the on-disk
manifest is rewritten at most once, after all per-file steps; one
restore_session call, however, rewrites it once per successfully
restored file, immediately after that file's restore, so it can be
rewritten mid-batch. -/
theorem manifest_batch_discipline_C7 (st : QState) (files : List String)
    (reasons : List (String × List String)) (sid now : String)
    (dryRun : Bool) :
    savesOnlyAfterBatch (moveToQuarantine st files reasons sid now dryRun).2.2 =
      true ∧
    (∀ (st2 : QState) (sid2 now2 : String) (dry2 : Bool),
      saveCount (restoreSession st2 sid2 now2 dry2).2.2 =
        if dry2 = true then 0
        else ((restoreSession st2 sid2 now2 dry2).1.filter
          (fun r => r.success)).length) := by
  constructor
  · have hno := moveLoop_no_save files st reasons sid now dryRun
    unfold moveToQuarantine
    dsimp only
    split
    · unfold savesOnlyAfterBatch
      rw [saveCount_append, saveCount_zero_of_no_save _ hno,
        noStepAfterSave_append_save _ hno]
      decide
    · unfold savesOnlyAfterBatch
      rw [saveCount_zero_of_no_save _ hno, noStepAfterSave_of_no_save _ hno]
      decide
  · intro st2 sid2 now2 dry2
    unfold restoreSession
    split
    · split <;> rfl
    · exact restoreLoop_saveCount _ _ _ _

/-- A not-yet-restored manifest record for path a.py in session s1. -/
def c7RecordA : FileRecord :=
  { originalPath := "a.py"
    quarantinePath := "quarantine/s1/a.py"
    sessionId := "s1"
    timestamp := "t0"
    reasons := []
    restored := false
    restoredAt := none
    deleted := false }

/-- A not-yet-restored manifest record for path b.py in session s1. -/
def c7RecordB : FileRecord :=
  { originalPath := "b.py"
    quarantinePath := "quarantine/s1/b.py"
    sessionId := "s1"
    timestamp := "t0"
    reasons := []
    restored := false
    restoredAt := none
    deleted := false }

/-- A state with one two-file quarantine session, both files
restorable. -/
def c7State : QState :=
  { fs := [("quarantine/s1/a.py", "A"), ("quarantine/s1/b.py", "B")]
    manifest :=
      { created := "t0"
        lastUpdated := "t0"
        quarantineSessions :=
          [{ sessionId := "s1", timestamp := "t0", filesCount := 2,
             files := ["a.py", "b.py"] }]
        files := [("a.py", c7RecordA), ("b.py", c7RecordB)] }
    diskManifest := none }

/-- C7 counterexample: restoring a two-file session rewrites the
on-disk manifest after each file, so a save occurs between the two
per-file steps and the batch sees two rewrites, refuting the
at-most-once-after-the-batch discipline for restore_session. -/
theorem manifest_midbatch_C7_counterexample :
    (restoreSession c7State "s1" "t1" false).2.2 =
      [.fileStep "a.py", .save, .fileStep "b.py", .save] ∧
    savesOnlyAfterBatch (restoreSession c7State "s1" "t1" false).2.2 = false := by
  constructor <;> rfl

/-! ## BFS orphan detection (C8) -/

theorem lookup_mem {β : Type} (l : List (String × β)) (k : String) (v : β)
    (h : List.lookup k l = some v) : v ∈ l.map Prod.snd := by
  induction l with
  | nil => cases h
  | cons a t ih =>
    obtain ⟨k1, v1⟩ := a
    rw [List.lookup] at h
    cases hbeq : (k == k1) with
    | true =>
      rw [hbeq] at h
      simp only [Option.some.injEq] at h
      subst h
      exact List.mem_map.mpr ⟨(k1, v1), List.mem_cons_self _ _, rfl⟩
    | false =>
      rw [hbeq] at h
      exact List.mem_cons_of_mem _ (ih h)

theorem nbrs_mem_univ (g : Graph) (entries : List String) (x d : String)
    (hd : d ∈ nbrs g x) : d ∈ bfsUniv g entries := by
  unfold nbrs at hd
  unfold bfsUniv
  rw [List.mem_dedup]
  cases hl : List.lookup x g with
  | none => rw [hl] at hd; cases hd
  | some l =>
    rw [hl] at hd
    have hlm : l ∈ g.map Prod.snd := lookup_mem g x l hl
    exact List.mem_append.mpr (Or.inr (List.mem_flatten.mpr ⟨l, hlm, hd⟩))

/-- Remaining BFS work: for every universe node not yet visited, one
visit step plus its out-degree. -/
def bfsW (g : Graph) (entries : List String) (visited : List String) : Nat :=
  (((bfsUniv g entries).filter (fun x => !(visited.contains x))).map
    (fun x => 1 + (nbrs g x).length)).sum

theorem filter_map_sum_remove (f : String → Nat) (l : List String) (c : String)
    (hnd : l.Nodup) (hc : c ∈ l) (p : String → Bool) (hpc : p c = true) :
    ((l.filter p).map f).sum =
      f c + ((l.filter (fun x => p x && !(x == c))).map f).sum := by
  induction l with
  | nil => cases hc
  | cons a t ih =>
    have hand := List.nodup_cons.mp hnd
    rcases List.mem_cons.mp hc with hca | hct
    · cases hca
      have hq : ∀ x ∈ t, (p x && !(x == c)) = p x := by
        intro x hx
        have hne : x ≠ c := fun hxc => hand.1 (hxc ▸ hx)
        rw [beq_eq_false_iff_ne.mpr hne]
        simp
      rw [List.filter_cons, if_pos hpc, List.filter_cons,
        if_neg (by simp), List.filter_congr hq]
      simp
    · have hne : a ≠ c := fun hac => hand.1 (hac ▸ hct)
      have hq : (p a && !(a == c)) = p a := by
        rw [beq_eq_false_iff_ne.mpr hne]
        simp
      rw [List.filter_cons, List.filter_cons, hq]
      cases hpa : p a with
      | true =>
        simp only [if_true, List.map_cons, List.sum_cons]
        rw [ih hand.2 hct]
        ring
      | false =>
        simp only [Bool.false_eq_true, if_false]
        exact ih hand.2 hct

theorem contains_append_single (l : List String) (c x : String) :
    (l ++ [c]).contains x = (l.contains x || (x == c)) := by
  rw [Bool.eq_iff_iff]
  simp only [List.contains, Bool.or_eq_true, List.elem_iff, List.mem_append,
    List.mem_singleton, beq_iff_eq]

/-- Visiting a fresh universe node decreases the remaining work by
exactly one plus its out-degree. -/
theorem bfsW_visit (g : Graph) (entries : List String)
    (visited : List String) (c : String)
    (hcu : c ∈ bfsUniv g entries) (hcv : visited.contains c = false) :
    bfsW g entries visited =
      (1 + (nbrs g c).length) + bfsW g entries (visited ++ [c]) := by
  unfold bfsW
  have hnd : (bfsUniv g entries).Nodup := List.nodup_dedup _
  have hq : ∀ x ∈ bfsUniv g entries,
      (!((visited ++ [c]).contains x)) =
        ((fun y => !(visited.contains y)) x && !(x == c)) := by
    intro x _
    rw [contains_append_single, Bool.not_or]
  rw [List.filter_congr hq,
    filter_map_sum_remove (fun x => 1 + (nbrs g x).length) _ c hnd hcu
      (fun y => !(visited.contains y))
      (by show (!(visited.contains c)) = true; rw [hcv]; rfl)]

/-- With fuel at least the queue length plus the remaining work, the
BFS loop completes. -/
theorem bfsAux_terminates (g : Graph) (entries : List String) :
    ∀ (fuel : Nat) (queue visited : List String),
    (∀ q ∈ queue, q ∈ bfsUniv g entries) →
    queue.length + bfsW g entries visited ≤ fuel →
    ∃ v, bfsAux g fuel queue visited = some v := by
  intro fuel
  induction fuel with
  | zero =>
    intro queue visited _ hb
    have : queue.length = 0 := by omega
    rw [List.length_eq_zero.mp this]
    exact ⟨visited, rfl⟩
  | succ n ih =>
    intro queue visited hq hb
    cases queue with
    | nil => exact ⟨visited, rfl⟩
    | cons c rest =>
      unfold bfsAux
      cases hcv : visited.contains c with
      | true =>
        rw [if_pos rfl]
        refine ih rest visited (fun x hx => hq x (List.mem_cons_of_mem c hx)) ?_
        simp only [List.length_cons] at hb
        omega
      | false =>
        rw [if_neg (by simp)]
        have hcu : c ∈ bfsUniv g entries := hq c (List.mem_cons_self c rest)
        have hW := bfsW_visit g entries visited c hcu hcv
        refine ih _ _ ?_ ?_
        · intro x hx
          rcases List.mem_append.mp hx with h1 | h2
          · exact hq x (List.mem_cons_of_mem c h1)
          · exact nbrs_mem_univ g entries c x (List.mem_filter.mp h2).1
        · have hlen : (rest ++ (nbrs g c).filter
              (fun d => !((visited ++ [c]).contains d))).length ≤
              rest.length + (nbrs g c).length := by
            rw [List.length_append]
            have := List.length_filter_le
              (fun d => !((visited ++ [c]).contains d)) (nbrs g c)
            omega
          simp only [List.length_cons] at hb
          omega

/-- Whatever set the BFS loop returns is sound (only reachable nodes),
contains the entry points and is closed under forward edges. -/
theorem bfsAux_correct (g : Graph) (entries : List String) :
    ∀ (fuel : Nat) (queue visited V : List String),
    bfsAux g fuel queue visited = some V →
    (∀ x ∈ visited, ReachFrom g entries x) →
    (∀ x ∈ queue, ReachFrom g entries x) →
    (∀ e ∈ entries, e ∈ visited ∨ e ∈ queue) →
    (∀ v ∈ visited, ∀ d ∈ nbrs g v, d ∈ visited ∨ d ∈ queue) →
    ((∀ x ∈ V, ReachFrom g entries x) ∧ (∀ e ∈ entries, e ∈ V) ∧
     (∀ v ∈ V, ∀ d ∈ nbrs g v, d ∈ V)) := by
  intro fuel
  induction fuel with
  | zero =>
    intro queue visited V hrun hv hq he hc
    cases queue with
    | nil =>
      have hVv : V = visited := by simpa [bfsAux] using hrun.symm
      subst hVv
      refine ⟨hv, ?_, ?_⟩
      · intro e hee
        rcases he e hee with h | h
        · exact h
        · cases h
      · intro v hvv d hd
        rcases hc v hvv d hd with h | h
        · exact h
        · cases h
    | cons c rest => simp [bfsAux] at hrun
  | succ n ih =>
    intro queue visited V hrun hv hq he hc
    cases queue with
    | nil =>
      have hVv : V = visited := by simpa [bfsAux] using hrun.symm
      subst hVv
      refine ⟨hv, ?_, ?_⟩
      · intro e hee
        rcases he e hee with h | h
        · exact h
        · cases h
      · intro v hvv d hd
        rcases hc v hvv d hd with h | h
        · exact h
        · cases h
    | cons c rest =>
      unfold bfsAux at hrun
      cases hcv : visited.contains c with
      | true =>
        rw [if_pos (by rw [hcv])] at hrun
        have hcm : c ∈ visited := List.elem_iff.mp hcv
        refine ih rest visited V hrun hv
          (fun x hx => hq x (List.mem_cons_of_mem c hx)) ?_ ?_
        · intro e hee
          rcases he e hee with h | h
          · exact Or.inl h
          · rcases List.mem_cons.mp h with hec | her
            · exact Or.inl (hec ▸ hcm)
            · exact Or.inr her
        · intro v hvv d hd
          rcases hc v hvv d hd with h | h
          · exact Or.inl h
          · rcases List.mem_cons.mp h with hdc | hdr
            · exact Or.inl (hdc ▸ hcm)
            · exact Or.inr hdr
      | false =>
        rw [if_neg (by rw [hcv]; exact Bool.false_ne_true)] at hrun
        have hcr : ReachFrom g entries c := hq c (List.mem_cons_self c rest)
        refine ih _ _ V hrun ?_ ?_ ?_ ?_
        · intro x hx
          rcases List.mem_append.mp hx with h1 | h2
          · exact hv x h1
          · rcases List.mem_singleton.mp h2 with rfl
            exact hcr
        · intro x hx
          rcases List.mem_append.mp hx with h1 | h2
          · exact hq x (List.mem_cons_of_mem c h1)
          · exact ReachFrom.step hcr (List.mem_filter.mp h2).1
        · intro e hee
          rcases he e hee with h | h
          · exact Or.inl (List.mem_append.mpr (Or.inl h))
          · rcases List.mem_cons.mp h with hec | her
            · exact Or.inl (List.mem_append.mpr (Or.inr
                (List.mem_singleton.mpr hec)))
            · exact Or.inr (List.mem_append.mpr (Or.inl her))
        · intro v hvv d hd
          rcases List.mem_append.mp hvv with hvold | hvc
          · rcases hc v hvold d hd with h | h
            · exact Or.inl (List.mem_append.mpr (Or.inl h))
            · rcases List.mem_cons.mp h with hdc | hdr
              · exact Or.inl (List.mem_append.mpr (Or.inr
                  (List.mem_singleton.mpr hdc)))
              · exact Or.inr (List.mem_append.mpr (Or.inl hdr))
          · rcases List.mem_singleton.mp hvc with rfl
            cases hdv : (visited ++ [v]).contains d with
            | true => exact Or.inl (List.elem_iff.mp hdv)
            | false =>
              refine Or.inr (List.mem_append.mpr (Or.inr ?_))
              exact List.mem_filter.mpr ⟨hd, by rw [hdv]; rfl⟩

/-- The example graph of the claim: A imports B, B imports C, D is
unconnected. -/
def exGraph : Graph := [("A", ["B"]), ("B", ["C"]), ("C", []), ("D", [])]

/-- C8: get_orphaned_files returns exactly the graph keys that are not
reachable from the entry points by following forward edges; in
particular, on the graph A to B to C with entry point A and an
unconnected D, the node C is reachable and only D is orphaned. -/
theorem get_orphaned_files_C8 :
    (∀ (g : Graph) (entryPoints : List String),
      ∃ orphans, getOrphanedFiles g entryPoints = some orphans ∧
        ∀ x, (x ∈ orphans ↔ x ∈ gkeys g ∧ ¬ ReachFrom g entryPoints x)) ∧
    getOrphanedFiles exGraph ["A"] = some ["D"] := by
  constructor
  · intro g entries
    have hW0 : bfsW g entries [] =
        ((bfsUniv g entries).map (fun x => 1 + (nbrs g x).length)).sum := by
      unfold bfsW
      have hT : ∀ x ∈ bfsUniv g entries,
          (!(([] : List String).contains x)) = true := fun x _ => rfl
      rw [List.filter_congr hT, List.filter_true]
    obtain ⟨V, hV⟩ := bfsAux_terminates g entries (bfsFuel g entries) entries []
      (fun q hqm => List.mem_dedup.mpr (List.mem_append.mpr (Or.inl
        (List.mem_append.mpr (Or.inl hqm)))))
      (by rw [hW0]; unfold bfsFuel; exact le_rfl)
    obtain ⟨hVr, hVe, hVc⟩ := bfsAux_correct g entries _ entries [] V hV
      (by intro x hx; cases hx) (fun x hx => ReachFrom.entry hx)
      (fun e he => Or.inr he) (by intro v hv; cases hv)
    have hreach : ∀ y, ReachFrom g entries y → y ∈ V := by
      intro y hy
      induction hy with
      | entry h => exact hVe _ h
      | step hx hd ih2 => exact hVc _ ih2 _ hd
    refine ⟨(gkeys g).filter (fun x => !(V.contains x)), ?_, ?_⟩
    · unfold getOrphanedFiles
      rw [hV]
      rfl
    · intro x
      rw [List.mem_filter]
      constructor
      · rintro ⟨hk, hnc⟩
        refine ⟨hk, fun hr => ?_⟩
        have hxv : V.contains x = true := List.elem_iff.mpr (hreach x hr)
        rw [hxv] at hnc
        cases hnc
      · rintro ⟨hk, hnr⟩
        refine ⟨hk, ?_⟩
        cases hcv : V.contains x with
        | false => rfl
        | true => exact absurd (hVr x (List.elem_iff.mp hcv)) hnr
  · rfl

/-! ## TF-IDF (C10) -/

instance : IsTotal (String × ℝ) weightGE := ⟨fun a b => le_total b.2 a.2⟩

instance : IsTrans (String × ℝ) weightGE :=
  ⟨fun _ _ _ hab hbc => le_trans hbc hab⟩

theorem foldl_ite_count {α : Type} (P : α → Bool) (l : List α) (a : ℕ) :
    l.foldl (fun acc x => if P x then acc + 1 else acc) a = a + l.countP P := by
  induction l generalizing a with
  | nil => simp
  | cons x t ih =>
    simp only [List.foldl_cons]
    rw [ih, List.countP_cons]
    cases hP : P x <;> simp [hP] <;> omega

theorem contains_dedup (l : List String) (a : String) :
    l.dedup.contains a = l.contains a := by
  rw [Bool.eq_iff_iff]
  simp only [List.contains, List.elem_iff, List.mem_dedup]

/-- The incrementally maintained document_freq counter equals the
number of corpus documents whose word_freq contains the term. -/
theorem documentFreq_eq_count (corpus : Corpus) (term : String) :
    documentFreq corpus term =
      corpus.countP (fun f => (f.2.map Prod.fst).contains term) := by
  unfold documentFreq
  rw [foldl_ite_count (fun f => ((f.2.map Prod.fst).dedup).contains term)
    corpus 0]
  rw [Nat.zero_add]
  induction corpus with
  | nil => rfl
  | cons f t ih =>
    rw [List.countP_cons, List.countP_cons, ih, contains_dedup]

/-- C10: after processing a corpus of distinct documents, every term of
every file carries the TF-IDF weight
(count / file total) times ln((N + 1) / (doc_freq + 1)), where doc_freq
counts the documents containing the term; and the file's keyword list
is the top 30 terms of a descending sort of its TF-IDF items. -/
theorem tfidf_C10 (corpus : Corpus) (hnd : (corpus.map Prod.fst).Nodup) :
    (∀ term : String, documentFreq corpus term =
      corpus.countP (fun f => (f.2.map Prod.fst).contains term)) ∧
    (∀ pf ∈ corpus, ∀ p ∈ pf.2,
      (p.1, ((p.2 : ℝ) / (totalWords pf.2 : ℝ)) *
        Real.log (((corpus.length : ℝ) + 1) /
          ((corpus.countP (fun f => (f.2.map Prod.fst).contains p.1) : ℝ) + 1))) ∈
        tfidfOfFile corpus.length corpus pf.2) ∧
    (∀ pf ∈ corpus,
      ∃ sorted : List (String × ℝ),
        sorted.Perm (tfidfOfFile corpus.length corpus pf.2) ∧
        List.Sorted weightGE sorted ∧
        keywordsOfFile corpus.length corpus pf.2 =
          (sorted.map Prod.fst).take 30 ∧
        ∀ p ∈ sorted.take 30, ∀ q ∈ sorted.drop 30, q.2 ≤ p.2) := by
  refine ⟨documentFreq_eq_count corpus, ?_, ?_⟩
  · intro pf _ p hp
    have hdf := documentFreq_eq_count corpus p.1
    refine List.mem_map.mpr ⟨p, hp, ?_⟩
    unfold tfidfWeight
    rw [hdf]
  · intro pf _
    refine ⟨(tfidfOfFile corpus.length corpus pf.2).insertionSort weightGE,
      List.perm_insertionSort _ _, List.sorted_insertionSort _ _, rfl, ?_⟩
    have hs : List.Sorted weightGE
        ((tfidfOfFile corpus.length corpus pf.2).insertionSort weightGE) :=
      List.sorted_insertionSort _ _
    rw [← List.take_append_drop 30
      ((tfidfOfFile corpus.length corpus pf.2).insertionSort weightGE)] at hs
    intro p hp q hq
    exact (List.pairwise_append.mp hs).2.2 p hp q hq

/-- A concrete two-document corpus for the C10 witness. -/
def c10Corpus : Corpus := [("a.md", [("alpha", 2)]), ("b.md", [("beta", 1)])]

/-- Witness for C10 at a concrete corpus. -/
theorem tfidf_C10_witness :
    (∀ term : String, documentFreq c10Corpus term =
      c10Corpus.countP (fun f => (f.2.map Prod.fst).contains term)) ∧
    (∀ pf ∈ c10Corpus, ∀ p ∈ pf.2,
      (p.1, ((p.2 : ℝ) / (totalWords pf.2 : ℝ)) *
        Real.log (((c10Corpus.length : ℝ) + 1) /
          ((c10Corpus.countP
            (fun f => (f.2.map Prod.fst).contains p.1) : ℝ) + 1))) ∈
        tfidfOfFile c10Corpus.length c10Corpus pf.2) ∧
    (∀ pf ∈ c10Corpus,
      ∃ sorted : List (String × ℝ),
        sorted.Perm (tfidfOfFile c10Corpus.length c10Corpus pf.2) ∧
        List.Sorted weightGE sorted ∧
        keywordsOfFile c10Corpus.length c10Corpus pf.2 =
          (sorted.map Prod.fst).take 30 ∧
        ∀ p ∈ sorted.take 30, ∀ q ∈ sorted.drop 30, q.2 ≤ p.2) :=
  tfidf_C10 c10Corpus (by decide)

end AetherCore
